import Mathlib

/-
Verification development for the CloudGrid spatial canvas engine
(AssemblyScript sources: quadtree.ts, viewport.ts, grid.ts, commands.ts and
the canvas-manager facade).  The engine is shallowly embedded: f32 values are
modelled as rationals (every concrete computation below stays within exactly
representable binary32 values), AssemblyScript Map insertion-order maps are
modelled as association lists, and in-place mutation becomes explicit state
passing.  The unbounded recursion of QuadtreeNode.insert (which can overflow
the call stack in the source) is modelled with an explicit fuel parameter;
all general theorems hold for every fuel value.
-/

namespace MediaGrid

/-- Axis-aligned bounding box, from quadtree.ts (class AABB). -/
structure AABB where
  x : ℚ
  y : ℚ
  width : ℚ
  height : ℚ
deriving DecidableEq, Repr

/-- AABB.intersects from quadtree.ts: inclusive separating-axis test
(touching edges count as intersecting, non-intersection only on strict
separation). -/
def AABB.intersects (a other : AABB) : Bool :=
  !(decide (a.x + a.width < other.x) ||
    decide (other.x + other.width < a.x) ||
    decide (a.y + a.height < other.y) ||
    decide (other.y + other.height < a.y))

/-- AABB.contains from quadtree.ts: inclusive boundary point test. -/
def AABB.containsPoint (a : AABB) (px py : ℚ) : Bool :=
  decide (a.x ≤ px) && decide (px ≤ a.x + a.width) &&
  decide (a.y ≤ py) && decide (py ≤ a.y + a.height)

/-- Canvas object record, from quadtree.ts (class CanvasObject). -/
structure CanvasObject where
  id : ℕ
  x : ℚ
  y : ℚ
  width : ℚ
  height : ℚ
  rotation : ℚ
  zIndex : ℤ
  objectType : ℕ
  assetId : ℕ
  visible : Bool
deriving DecidableEq, Repr

/-- Stand-in for Mathf.cos (a binary32 approximation in the source).  It is
modelled exactly only at rotation 0 (cos 0 = 1), the only rotation value the
engine ever produces: no exported operation sets a non-zero rotation, and
CanvasObject.getBounds takes the unrotated branch whenever rotation = 0, so
no theorem below depends on the value at other inputs. -/
def cosF (r : ℚ) : ℚ := if r = 0 then 1 else 0

/-- Stand-in for Mathf.sin; see cosF. -/
def sinF (r : ℚ) : ℚ := if r = 0 then 0 else 1

/-- CanvasObject.getRotatedBounds from quadtree.ts: rotate the four corners
about the origin and take the axis-aligned min/max envelope. -/
def CanvasObject.getRotatedBounds (o : CanvasObject) : AABB :=
  let c := cosF o.rotation
  let s := sinF o.rotation
  let x1 := o.x * c - o.y * s
  let y1 := o.x * s + o.y * c
  let x2 := (o.x + o.width) * c - o.y * s
  let y2 := (o.x + o.width) * s + o.y * c
  let x3 := (o.x + o.width) * c - (o.y + o.height) * s
  let y3 := (o.x + o.width) * s + (o.y + o.height) * c
  let x4 := o.x * c - (o.y + o.height) * s
  let y4 := o.x * s + (o.y + o.height) * c
  let minX := min (min (min x1 x2) x3) x4
  let minY := min (min (min y1 y2) y3) y4
  let maxX := max (max (max x1 x2) x3) x4
  let maxY := max (max (max y1 y2) y3) y4
  ⟨minX, minY, maxX - minX, maxY - minY⟩

/-- CanvasObject.getBounds from quadtree.ts. -/
def CanvasObject.getBounds (o : CanvasObject) : AABB :=
  if o.rotation ≠ 0 then o.getRotatedBounds
  else ⟨o.x, o.y, o.width, o.height⟩

/-- Quadtree node, from quadtree.ts (class QuadtreeNode).  The source keeps a
`divided` flag in lockstep with four nullable children (subdivide sets the
flag and all four children together, and nothing ever unsets them); the
embedding fuses the two: `leaf` is divided = false, `branch` is
divided = true with the four children northeast, northwest, southeast,
southwest in that order. -/
inductive QuadtreeNode : Type where
  | leaf (boundary : AABB) (capacity : ℕ) (objects : List CanvasObject) : QuadtreeNode
  | branch (boundary : AABB) (capacity : ℕ) (objects : List CanvasObject)
      (northeast northwest southeast southwest : QuadtreeNode) : QuadtreeNode
deriving DecidableEq, Repr

/-- Boundary accessor. -/
def QuadtreeNode.boundary : QuadtreeNode → AABB
  | .leaf b _ _ => b
  | .branch b _ _ _ _ _ _ => b

/-- The four fresh child quadrants built by QuadtreeNode.subdivide
(northeast, northwest, southeast, southwest). -/
def mkChildLeaves (b : AABB) (cap : ℕ) :
    QuadtreeNode × QuadtreeNode × QuadtreeNode × QuadtreeNode :=
  let w := b.width / 2
  let h := b.height / 2
  (QuadtreeNode.leaf ⟨b.x + w, b.y, w, h⟩ cap [],
   QuadtreeNode.leaf ⟨b.x, b.y, w, h⟩ cap [],
   QuadtreeNode.leaf ⟨b.x + w, b.y + h, w, h⟩ cap [],
   QuadtreeNode.leaf ⟨b.x, b.y + h, w, h⟩ cap [])

/-- The re-insertion loop of QuadtreeNode.subdivide: each object held by the
subdividing node is offered to every one of the four children (the returned
booleans are discarded in the source). -/
def redistribute (ins : CanvasObject → QuadtreeNode → Bool × QuadtreeNode) :
    List CanvasObject →
    QuadtreeNode × QuadtreeNode × QuadtreeNode × QuadtreeNode →
    QuadtreeNode × QuadtreeNode × QuadtreeNode × QuadtreeNode
  | [], q => q
  | o :: rest, (ne, nw, se, sw) =>
      redistribute ins rest ((ins o ne).2, (ins o nw).2, (ins o se).2, (ins o sw).2)

/-- The tail of QuadtreeNode.insert: try the four children in source order
(northeast, northwest, southeast, southwest), short-circuiting on the first
child whose insert returns true. -/
def insertChildren (ins : CanvasObject → QuadtreeNode → Bool × QuadtreeNode)
    (obj : CanvasObject) (b : AABB) (cap : ℕ) (objs : List CanvasObject)
    (q : QuadtreeNode × QuadtreeNode × QuadtreeNode × QuadtreeNode) :
    Bool × QuadtreeNode :=
  match q with
  | (ne, nw, se, sw) =>
    let rne := ins obj ne
    if rne.1 then (true, .branch b cap objs rne.2 nw se sw)
    else
      let rnw := ins obj nw
      if rnw.1 then (true, .branch b cap objs rne.2 rnw.2 se sw)
      else
        let rse := ins obj se
        if rse.1 then (true, .branch b cap objs rne.2 rnw.2 rse.2 sw)
        else
          let rsw := ins obj sw
          (rsw.1, .branch b cap objs rne.2 rnw.2 rse.2 rsw.2)

/-- One unrolling of QuadtreeNode.insert, with `ins` standing for the
recursive calls: reject when the boundary misses the object's bounds; push
into the local bucket when below capacity and not divided; otherwise
subdivide if needed (redistributing the bucket into all four children and
clearing it) and try the children in order. -/
def insertStep (ins : CanvasObject → QuadtreeNode → Bool × QuadtreeNode)
    (obj : CanvasObject) : QuadtreeNode → Bool × QuadtreeNode
  | .leaf b cap objs =>
    if !(b.intersects obj.getBounds) then (false, .leaf b cap objs)
    else if objs.length < cap then (true, .leaf b cap (objs ++ [obj]))
    else
      let q0 := mkChildLeaves b cap
      let q1 := redistribute ins objs q0
      insertChildren ins obj b cap [] q1
  | .branch b cap objs ne nw se sw =>
    if !(b.intersects obj.getBounds) then (false, .branch b cap objs ne nw se sw)
    else insertChildren ins obj b cap objs (ne, nw, se, sw)

/-- QuadtreeNode.insert.  The source recursion has no termination guarantee
(capacity-exceeding coincident objects recurse forever); the embedding takes
explicit fuel, returning false without change when it runs out. -/
def QuadtreeNode.insert : ℕ → CanvasObject → QuadtreeNode → Bool × QuadtreeNode
  | 0 => fun _ n => (false, n)
  | fuel + 1 => fun obj n => insertStep (QuadtreeNode.insert fuel) obj n

/-- The bucket scan of QuadtreeNode.query: append every bucket object that
intersects the range and whose id has not been seen, recording seen ids. -/
def collectObjects (range : AABB) :
    List CanvasObject → List CanvasObject × List ℕ → List CanvasObject × List ℕ
  | [], acc => acc
  | o :: rest, (found, seen) =>
    if !(seen.contains o.id) && range.intersects o.getBounds then
      collectObjects range rest (found ++ [o], seen ++ [o.id])
    else
      collectObjects range rest (found, seen)

/-- QuadtreeNode.query from quadtree.ts: skip nodes whose boundary misses the
range, collect matching bucket objects deduplicated through the seen-id set,
then recurse into the children in source order. -/
def QuadtreeNode.query (range : AABB) :
    QuadtreeNode → List CanvasObject × List ℕ → List CanvasObject × List ℕ
  | .leaf b _ objs, acc =>
    if !(b.intersects range) then acc else collectObjects range objs acc
  | .branch b _ objs ne nw se sw, acc =>
    if !(b.intersects range) then acc
    else
      let acc1 := collectObjects range objs acc
      let acc2 := QuadtreeNode.query range ne acc1
      let acc3 := QuadtreeNode.query range nw acc2
      let acc4 := QuadtreeNode.query range se acc3
      QuadtreeNode.query range sw acc4

/-- The splice loop of QuadtreeNode.remove: delete the first bucket entry
with the given id, reporting whether one was found. -/
def removeFirstById (objectId : ℕ) : List CanvasObject → Bool × List CanvasObject
  | [] => (false, [])
  | o :: rest =>
    if o.id == objectId then (true, rest)
    else
      let r := removeFirstById objectId rest
      (r.1, o :: r.2)

/-- QuadtreeNode.remove from quadtree.ts: splice the first local match, else
recurse into the children in source order, short-circuiting on success. -/
def QuadtreeNode.remove (objectId : ℕ) : QuadtreeNode → Bool × QuadtreeNode
  | .leaf b cap objs =>
    let r := removeFirstById objectId objs
    (r.1, .leaf b cap r.2)
  | .branch b cap objs ne nw se sw =>
    let r := removeFirstById objectId objs
    if r.1 then (true, .branch b cap r.2 ne nw se sw)
    else
      let rne := QuadtreeNode.remove objectId ne
      if rne.1 then (true, .branch b cap objs rne.2 nw se sw)
      else
        let rnw := QuadtreeNode.remove objectId nw
        if rnw.1 then (true, .branch b cap objs rne.2 rnw.2 se sw)
        else
          let rse := QuadtreeNode.remove objectId se
          if rse.1 then (true, .branch b cap objs rne.2 rnw.2 rse.2 sw)
          else
            let rsw := QuadtreeNode.remove objectId sw
            (rsw.1, .branch b cap objs rne.2 rnw.2 rse.2 rsw.2)

/-- Membership of an object anywhere in a node's subtree (a bucket holds it,
here or below).  This is the notion of an object being stored in the tree. -/
def QuadtreeNode.memObj (o : CanvasObject) : QuadtreeNode → Bool
  | .leaf _ _ objs => decide (o ∈ objs)
  | .branch _ _ objs ne nw se sw =>
    decide (o ∈ objs) || ne.memObj o || nw.memObj o || se.memObj o || sw.memObj o

/-- Whether some stored object in the subtree carries the given id. -/
def QuadtreeNode.hasId (objectId : ℕ) : QuadtreeNode → Bool
  | .leaf _ _ objs => objs.any (fun o => o.id == objectId)
  | .branch _ _ objs ne nw se sw =>
    objs.any (fun o => o.id == objectId) || ne.hasId objectId ||
      nw.hasId objectId || se.hasId objectId || sw.hasId objectId

/-- Quadtree wrapper, from quadtree.ts (class Quadtree). -/
structure Quadtree where
  root : QuadtreeNode
deriving DecidableEq, Repr

/-- Quadtree constructor (default capacity 4). -/
def Quadtree.new (x y width height : ℚ) (capacity : ℕ) : Quadtree :=
  ⟨.leaf ⟨x, y, width, height⟩ capacity []⟩

/-- Quadtree.insert (the root insert's boolean is discarded). -/
def Quadtree.insert (fuel : ℕ) (obj : CanvasObject) (t : Quadtree) : Quadtree :=
  ⟨(QuadtreeNode.insert fuel obj t.root).2⟩

/-- Quadtree.queryViewport: run the root query with empty accumulators and
return the collected objects. -/
def Quadtree.queryViewport (t : Quadtree) (viewport : AABB) : List CanvasObject :=
  (QuadtreeNode.query viewport t.root ([], [])).1

/-- Quadtree.remove (the boolean is discarded). -/
def Quadtree.remove (t : Quadtree) (objectId : ℕ) : Quadtree :=
  ⟨(QuadtreeNode.remove objectId t.root).2⟩

/-- Quadtree.rebuild: reset to a single empty root over the original boundary
(capacity 4, as hard-coded in the source) and re-insert every object. -/
def Quadtree.rebuild (fuel : ℕ) (t : Quadtree) (objects : List CanvasObject) : Quadtree :=
  objects.foldl (fun acc o => Quadtree.insert fuel o acc)
    ⟨.leaf t.root.boundary 4 []⟩

/-- Grid snapping system, from grid.ts (class GridSystem); snapping starts
enabled. -/
structure GridSystem where
  gridSize : ℚ
  snapEnabled : Bool
deriving DecidableEq, Repr

/-- GridSystem constructor. -/
def GridSystem.new (gridSize : ℚ) : GridSystem := ⟨gridSize, true⟩

/-- Mathf.round: round half toward positive infinity, the binary32 analogue
of JS Math.round (exact on the rational model). -/
def mathfRound (v : ℚ) : ℚ := ((round v : ℤ) : ℚ)

/-- GridSystem.snapValue: round to the nearest grid multiple when snapping is
enabled, identity otherwise. -/
def GridSystem.snapValue (g : GridSystem) (value : ℚ) : ℚ :=
  if g.snapEnabled then mathfRound (value / g.gridSize) * g.gridSize else value

/-- GridSystem.snap on a coordinate pair. -/
def GridSystem.snap (g : GridSystem) (x y : ℚ) : ℚ × ℚ :=
  if g.snapEnabled then
    (mathfRound (x / g.gridSize) * g.gridSize,
     mathfRound (y / g.gridSize) * g.gridSize)
  else (x, y)

/-- GridSystem.snapObject: snap position and dimensions of an object (used at
creation time); no-op when snapping is disabled. -/
def GridSystem.snapObject (g : GridSystem) (o : CanvasObject) : CanvasObject :=
  if !g.snapEnabled then o
  else
    { o with
      x := mathfRound (o.x / g.gridSize) * g.gridSize,
      y := mathfRound (o.y / g.gridSize) * g.gridSize,
      width := mathfRound (o.width / g.gridSize) * g.gridSize,
      height := mathfRound (o.height / g.gridSize) * g.gridSize }

/-- GridSystem.setSnapEnabled. -/
def GridSystem.setSnapEnabled (g : GridSystem) (enabled : Bool) : GridSystem :=
  { g with snapEnabled := enabled }

/-- GridSystem.setGridSize. -/
def GridSystem.setGridSize (g : GridSystem) (size : ℚ) : GridSystem :=
  { g with gridSize := size }

/-- Camera, from viewport.ts: world-space focus point plus zoom, starting at
the origin with zoom 1. -/
structure Camera where
  x : ℚ
  y : ℚ
  zoom : ℚ
deriving DecidableEq, Repr

/-- Camera constructor. -/
def Camera.new : Camera := ⟨0, 0, 1⟩

/-- Camera.pan: move by the delta scaled by inverse zoom. -/
def Camera.pan (c : Camera) (dx dy : ℚ) : Camera :=
  { c with x := c.x + dx / c.zoom, y := c.y + dy / c.zoom }

/-- Camera.zoomAt from viewport.ts: additive zoom delta clamped to
[0.1, 10.0], then re-position the camera by
newX = centerX - (centerX - oldX) * (newZoom / oldZoom).  (The f32 literal
0.1 is within 2^-26 of 1/10; no theorem below touches that clamp edge.) -/
def Camera.zoomAt (c : Camera) (centerX centerY delta : ℚ) : Camera :=
  let oldZoom := c.zoom
  let newZoom := max (1 / 10) (min 10 (c.zoom + delta))
  let zr := newZoom / oldZoom
  ⟨centerX - (centerX - c.x) * zr, centerY - (centerY - c.y) * zr, newZoom⟩

/-- Camera.screenToWorld from viewport.ts. -/
def Camera.screenToWorld (c : Camera) (screenX screenY canvasWidth canvasHeight : ℚ) :
    ℚ × ℚ :=
  (c.x + (screenX - canvasWidth / 2) / c.zoom,
   c.y + (screenY - canvasHeight / 2) / c.zoom)

/-- Camera.getViewportBounds: the visible world rectangle, centered on the
camera, sized canvas dimensions over zoom. -/
def Camera.getViewportBounds (c : Camera) (canvasWidth canvasHeight : ℚ) : AABB :=
  let worldWidth := canvasWidth / c.zoom
  let worldHeight := canvasHeight / c.zoom
  ⟨c.x - worldWidth / 2, c.y - worldHeight / 2, worldWidth, worldHeight⟩

/-- One step of the stable insertion sort of Viewport.sortByZIndex: place the
key after every element whose zIndex is not greater. -/
def insertByZIndex (key : CanvasObject) : List CanvasObject → List CanvasObject
  | [] => [key]
  | o :: rest =>
    if decide (key.zIndex < o.zIndex) then key :: o :: rest
    else o :: insertByZIndex key rest

/-- Viewport.sortByZIndex: stable ascending insertion sort on zIndex,
processing the list left to right as the in-place source loop does. -/
def sortByZIndex (l : List CanvasObject) : List CanvasObject :=
  l.foldl (fun acc o => insertByZIndex o acc) []

/-- Viewport, from viewport.ts: camera, quadtree over the fixed world bound
of plus/minus 100000, canvas size and the last visible-object list. -/
structure Viewport where
  camera : Camera
  quadtree : Quadtree
  canvasWidth : ℚ
  canvasHeight : ℚ
  visibleObjects : List CanvasObject
deriving DecidableEq, Repr

/-- Viewport constructor. -/
def Viewport.new (canvasWidth canvasHeight : ℚ) : Viewport :=
  ⟨Camera.new, Quadtree.new (-100000) (-100000) 200000 200000 4,
   canvasWidth, canvasHeight, []⟩

/-- Viewport.updateVisibleObjects: query the quadtree with the current
viewport bounds, sort stably by zIndex, store the list, return its length. -/
def Viewport.updateVisibleObjects (v : Viewport) : ℕ × Viewport :=
  let vp := v.camera.getViewportBounds v.canvasWidth v.canvasHeight
  let vis := sortByZIndex (v.quadtree.queryViewport vp)
  (vis.length, { v with visibleObjects := vis })

/-- The object store Map of the canvas manager, modelled as an
insertion-ordered association list (AssemblyScript Map preserves insertion
order; set on an existing key updates in place, set on a new key appends). -/
abbrev ObjStore := List (ℕ × CanvasObject)

/-- Map.get. -/
def mapGet (s : ObjStore) (k : ℕ) : Option CanvasObject :=
  (s.find? (fun p => p.1 == k)).map (fun p => p.2)

/-- Map.has. -/
def mapHas (s : ObjStore) (k : ℕ) : Bool := s.any (fun p => p.1 == k)

/-- Map.set: update in place when the key exists, append otherwise. -/
def mapSet (s : ObjStore) (k : ℕ) (v : CanvasObject) : ObjStore :=
  match s with
  | [] => [(k, v)]
  | p :: rest => if p.1 == k then (k, v) :: rest else p :: mapSet rest k v

/-- Map.delete. -/
def mapDelete (s : ObjStore) (k : ℕ) : ObjStore :=
  s.filter (fun p => !(p.1 == k))

/-- Map.keys in insertion order. -/
def mapKeys (s : ObjStore) : List ℕ := s.map (fun p => p.1)

/-- Map.values in insertion order. -/
def mapValues (s : ObjStore) : List CanvasObject := s.map (fun p => p.2)

/-- Map.size (keys are unique for every store the engine builds). -/
def mapSize (s : ObjStore) : ℕ := s.length

/-- The rectangle (x, y, width, height) stored under a key, or none: the
observable part of a store entry named by the undo/redo specification. -/
def rectOf (s : ObjStore) (k : ℕ) : Option (ℚ × ℚ × ℚ × ℚ) :=
  (mapGet s k).map (fun o => (o.x, o.y, o.width, o.height))

/-- Observational equivalence of object stores: same set of ids and the same
x, y, width, height per id. -/
def obsEq (s t : ObjStore) : Prop := ∀ k, rectOf s k = rectOf t k

/-- Command variants, from commands.ts.  Each source class stores a reference
to the shared object Map (and, for add/delete, the quadtree); the embedding
keeps only the captured payload and passes the shared state explicitly to
execC/undoC.  batchMove carries flat [x1, y1, x2, y2, ...] position arrays
and batchResize flat [x1, y1, w1, h1, ...] arrays, exactly as the source. -/
inductive Command : Type where
  | move (objectId : ℕ) (oldX oldY newX newY : ℚ) : Command
  | batchMove (objectIds : List ℕ) (oldPositions newPositions : List ℚ) : Command
  | batchResize (objectIds : List ℕ) (oldData newData : List ℚ) : Command
  | resize (objectId : ℕ)
      (oldX oldY oldWidth oldHeight newX newY newWidth newHeight : ℚ) : Command
  | addObject (object : CanvasObject) : Command
  | deleteObject (object : CanvasObject) : Command
  | batchDelete (deletedObjects : List CanvasObject) : Command
deriving DecidableEq, Repr

/-- The shared mutable state a command touches: the object store and the
quadtree. -/
structure CmdState where
  objects : ObjStore
  quadtree : Quadtree
deriving DecidableEq, Repr

/-- The body shared by MoveCommand.execute and undo: look the id up and, when
present, overwrite x and y. -/
def writeXY (s : ObjStore) (k : ℕ) (nx ny : ℚ) : ObjStore :=
  match mapGet s k with
  | some o => mapSet s k { o with x := nx, y := ny }
  | none => s

/-- The body shared by ResizeCommand.execute and undo: look the id up and,
when present, overwrite x, y, width and height. -/
def writeRect (s : ObjStore) (k : ℕ) (nx ny nw nh : ℚ) : ObjStore :=
  match mapGet s k with
  | some o => mapSet s k { o with x := nx, y := ny, width := nw, height := nh }
  | none => s

/-- The indexed loop of BatchMoveCommand.execute/undo over objectIds, reading
positions[2i] and positions[2i+1]. -/
def batchMoveRunAux (pos : List ℚ) : ℕ → List ℕ → ObjStore → ObjStore
  | _, [], s => s
  | i, k :: rest, s =>
    batchMoveRunAux pos (i + 1) rest
      (writeXY s k (pos.getD (2 * i) 0) (pos.getD (2 * i + 1) 0))

/-- BatchMoveCommand loop from index 0. -/
def batchMoveRun (ids : List ℕ) (pos : List ℚ) (s : ObjStore) : ObjStore :=
  batchMoveRunAux pos 0 ids s

/-- The indexed loop of BatchResizeCommand.execute/undo over objectIds,
reading data[4i..4i+3]. -/
def batchResizeRunAux (dat : List ℚ) : ℕ → List ℕ → ObjStore → ObjStore
  | _, [], s => s
  | i, k :: rest, s =>
    batchResizeRunAux dat (i + 1) rest
      (writeRect s k (dat.getD (4 * i) 0) (dat.getD (4 * i + 1) 0)
        (dat.getD (4 * i + 2) 0) (dat.getD (4 * i + 3) 0))

/-- BatchResizeCommand loop from index 0. -/
def batchResizeRun (ids : List ℕ) (dat : List ℚ) (s : ObjStore) : ObjStore :=
  batchResizeRunAux dat 0 ids s

/-- Command.execute from commands.ts, per variant. -/
def Command.execC (fuel : ℕ) : Command → CmdState → CmdState
  | .move objectId _ _ nx ny, st =>
    { st with objects := writeXY st.objects objectId nx ny }
  | .batchMove ids _ news, st =>
    { st with objects := batchMoveRun ids news st.objects }
  | .batchResize ids _ news, st =>
    { st with objects := batchResizeRun ids news st.objects }
  | .resize objectId _ _ _ _ nx ny nw nh, st =>
    { st with objects := writeRect st.objects objectId nx ny nw nh }
  | .addObject o, st =>
    ⟨mapSet st.objects o.id o, Quadtree.insert fuel o st.quadtree⟩
  | .deleteObject o, st =>
    ⟨mapDelete st.objects o.id, st.quadtree.remove o.id⟩
  | .batchDelete objs, st =>
    objs.foldl (fun acc o => ⟨mapDelete acc.objects o.id, acc.quadtree.remove o.id⟩) st

/-- Command.undo from commands.ts, per variant. -/
def Command.undoC (fuel : ℕ) : Command → CmdState → CmdState
  | .move objectId ox oy _ _, st =>
    { st with objects := writeXY st.objects objectId ox oy }
  | .batchMove ids olds _, st =>
    { st with objects := batchMoveRun ids olds st.objects }
  | .batchResize ids olds _, st =>
    { st with objects := batchResizeRun ids olds st.objects }
  | .resize objectId ox oy ow oh _ _ _ _, st =>
    { st with objects := writeRect st.objects objectId ox oy ow oh }
  | .addObject o, st =>
    ⟨mapDelete st.objects o.id, st.quadtree.remove o.id⟩
  | .deleteObject o, st =>
    ⟨mapSet st.objects o.id o, Quadtree.insert fuel o st.quadtree⟩
  | .batchDelete objs, st =>
    objs.foldl (fun acc o => ⟨mapSet acc.objects o.id o, Quadtree.insert fuel o acc.quadtree⟩) st

/-- CommandHistory, from commands.ts: entry list, cursor (i32, starts at -1)
and the cap (default 100). -/
structure CommandHistory where
  history : List Command
  currentIndex : ℤ
  maxHistory : ℕ
deriving DecidableEq, Repr

/-- CommandHistory constructor. -/
def CommandHistory.new : CommandHistory := ⟨[], -1, 100⟩

/-- Placeholder command for the (unreachable in maintained states)
out-of-range history read. -/
def dummyCommand : Command := Command.move 0 0 0 0 0

/-- CommandHistory.execute: pop every entry after the cursor (the while loop
leaves the first currentIndex + 1 entries), run the command, append, advance
the cursor; when the length exceeds maxHistory, shift off index 0 and
decrement the cursor. -/
def CommandHistory.execute (fuel : ℕ) (h : CommandHistory) (command : Command)
    (st : CmdState) : CommandHistory × CmdState :=
  let hist1 := h.history.take (h.currentIndex + 1).toNat
  let st1 := command.execC fuel st
  let hist2 := hist1 ++ [command]
  let idx2 := h.currentIndex + 1
  if h.maxHistory < hist2.length then
    (⟨hist2.drop 1, idx2 - 1, h.maxHistory⟩, st1)
  else
    (⟨hist2, idx2, h.maxHistory⟩, st1)

/-- CommandHistory.undo: false when the cursor is negative, else undo the
entry at the cursor and decrement it. -/
def CommandHistory.undo (fuel : ℕ) (h : CommandHistory) (st : CmdState) :
    Bool × CommandHistory × CmdState :=
  if h.currentIndex < 0 then (false, h, st)
  else
    let cmd := h.history.getD h.currentIndex.toNat dummyCommand
    (true, { h with currentIndex := h.currentIndex - 1 }, cmd.undoC fuel st)

/-- CommandHistory.redo: false when the cursor is at (or past) the last
index, else advance the cursor and execute that entry. -/
def CommandHistory.redo (fuel : ℕ) (h : CommandHistory) (st : CmdState) :
    Bool × CommandHistory × CmdState :=
  if (h.history.length : ℤ) - 1 ≤ h.currentIndex then (false, h, st)
  else
    let idx := h.currentIndex + 1
    let cmd := h.history.getD idx.toNat dummyCommand
    (true, { h with currentIndex := idx }, cmd.execC fuel st)

/-- CommandHistory.canUndo. -/
def CommandHistory.canUndo (h : CommandHistory) : Bool :=
  decide (0 ≤ h.currentIndex)

/-- CommandHistory.canRedo. -/
def CommandHistory.canRedo (h : CommandHistory) : Bool :=
  decide (h.currentIndex < (h.history.length : ℤ) - 1)

/-- CommandHistory.clear. -/
def CommandHistory.clear (h : CommandHistory) : CommandHistory :=
  ⟨[], -1, h.maxHistory⟩

/-- The accumulating BatchMoveCommand held in session state between
beginBatchMove and endBatchMove (objectIds plus the flat old/new position
arrays). -/
structure BatchMoveState where
  objectIds : List ℕ
  oldPositions : List ℚ
  newPositions : List ℚ
deriving DecidableEq, Repr

/-- BatchMoveCommand.isEmpty. -/
def BatchMoveState.isEmpty (b : BatchMoveState) : Bool :=
  b.objectIds.length == 0

/-- The accumulating BatchResizeCommand held in session state. -/
structure BatchResizeState where
  objectIds : List ℕ
  oldData : List ℚ
  newData : List ℚ
deriving DecidableEq, Repr

/-- BatchResizeCommand.isEmpty. -/
def BatchResizeState.isEmpty (b : BatchResizeState) : Bool :=
  b.objectIds.length == 0

/-- The canvas-manager session state (class InfiniteCanvas of the facade):
viewport, grid, command history, object store, ordered id list, next-id
counter, state version and the nullable in-progress batch commands. -/
structure InfiniteCanvas where
  viewport : Viewport
  grid : GridSystem
  commandHistory : CommandHistory
  objects : ObjStore
  objectList : List ℕ
  nextObjectId : ℕ
  stateVersion : ℕ
  batchMoveCmd : Option BatchMoveState
  batchResizeCmd : Option BatchResizeState
deriving DecidableEq, Repr

/-- InfiniteCanvas constructor. -/
def InfiniteCanvas.new (canvasWidth canvasHeight gridSize : ℚ) : InfiniteCanvas :=
  ⟨Viewport.new canvasWidth canvasHeight, GridSystem.new gridSize,
   CommandHistory.new, [], [], 1, 0, none, none⟩

/-- incrementVersion (stateVersion is a u32 and wraps at 2^32). -/
def InfiniteCanvas.incrementVersion (c : InfiniteCanvas) : InfiniteCanvas :=
  { c with stateVersion := (c.stateVersion + 1) % 4294967296 }

/-- The module-level nullable session: every exported function checks it and
returns a sentinel when it is null. -/
abbrev Session := Option InfiniteCanvas

/-- Exported createCanvas: replace the session with a fresh canvas. -/
def createCanvas (width height gridSize : ℚ) (_s : Session) : Session :=
  some (InfiniteCanvas.new width height gridSize)

/-- Exported clearCanvas. -/
def clearCanvas (fuel : ℕ) (s : Session) : Session :=
  match s with
  | none => none
  | some c =>
    some (InfiniteCanvas.incrementVersion
      { c with
        objects := [],
        objectList := [],
        commandHistory := c.commandHistory.clear,
        viewport := { c.viewport with
          quadtree := c.viewport.quadtree.rebuild fuel [] } })

/-- The object built by addObject before grid snapping: fresh id, the given
geometry, rotation 0, zIndex 0, and the given assetId and objectType. -/
def mkAddedObject (c : InfiniteCanvas) (x y width height : ℚ)
    (assetId objectType : ℕ) : CanvasObject :=
  c.grid.snapObject
    ⟨c.nextObjectId, x, y, width, height, 0, 0, objectType, assetId, false⟩

/-- Exported addObject: allocate the next id (u32, post-increment), snap the
object to the grid, execute an AddObjectCommand through the history, append
the id to the ordered list, bump the version, return the id (0 when no
session). -/
def addObject (fuel : ℕ) (x y width height : ℚ) (assetId objectType : ℕ)
    (s : Session) : ℕ × Session :=
  match s with
  | none => (0, none)
  | some c =>
    let obj := mkAddedObject c x y width height assetId objectType
    let cmd := Command.addObject obj
    let r := c.commandHistory.execute fuel cmd ⟨c.objects, c.viewport.quadtree⟩
    let c1 :=
      { c with
        nextObjectId := (c.nextObjectId + 1) % 4294967296,
        commandHistory := r.1,
        objects := r.2.objects,
        viewport := { c.viewport with quadtree := r.2.quadtree },
        objectList := c.objectList ++ [obj.id] }
    (obj.id, some c1.incrementVersion)

/-- Exported moveObject: no-op on an unknown id; otherwise execute a
MoveCommand capturing the old position and the snapped target, then remove
and re-insert the (already mutated) object in the quadtree and bump the
version. -/
def moveObject (fuel : ℕ) (objectId : ℕ) (newX newY : ℚ) (s : Session) : Session :=
  match s with
  | none => none
  | some c =>
    match mapGet c.objects objectId with
    | none => some c
    | some obj =>
      let snapped := c.grid.snap newX newY
      let cmd := Command.move objectId obj.x obj.y snapped.1 snapped.2
      let r := c.commandHistory.execute fuel cmd ⟨c.objects, c.viewport.quadtree⟩
      let objNow := (mapGet r.2.objects objectId).getD obj
      let qt := Quadtree.insert fuel objNow (r.2.quadtree.remove objectId)
      some (InfiniteCanvas.incrementVersion
        { c with
          commandHistory := r.1,
          objects := r.2.objects,
          viewport := { c.viewport with quadtree := qt } })

/-- Exported beginBatchMove: put a fresh empty batch-move command in the
session slot. -/
def beginBatchMove (s : Session) : Session :=
  match s with
  | none => none
  | some c => some { c with batchMoveCmd := some ⟨[], [], []⟩ }

/-- Exported addToBatchMove: no-op without a slot or on an unknown id, else
append an entry capturing the current position as old and the snapped target
as new (the store itself is not mutated yet). -/
def addToBatchMove (objectId : ℕ) (newX newY : ℚ) (s : Session) : Session :=
  match s with
  | none => none
  | some c =>
    match c.batchMoveCmd with
    | none => some c
    | some bm =>
      match mapGet c.objects objectId with
      | none => some c
      | some obj =>
        let snapped := c.grid.snap newX newY
        let bm1 : BatchMoveState :=
          ⟨bm.objectIds ++ [objectId],
           bm.oldPositions ++ [obj.x, obj.y],
           bm.newPositions ++ [snapped.1, snapped.2]⟩
        some { c with batchMoveCmd := some bm1 }

/-- Exported endBatchMove: when the accumulated batch is non-empty, execute
it as one BatchMoveCommand history entry, re-index every touched object in
the quadtree and bump the version once; in every case clear the slot. -/
def endBatchMove (fuel : ℕ) (s : Session) : Session :=
  match s with
  | none => none
  | some c =>
    match c.batchMoveCmd with
    | none => some c
    | some bm =>
      if bm.isEmpty then some { c with batchMoveCmd := none }
      else
        let cmd := Command.batchMove bm.objectIds bm.oldPositions bm.newPositions
        let r := c.commandHistory.execute fuel cmd ⟨c.objects, c.viewport.quadtree⟩
        let qt := bm.objectIds.foldl (fun q objId =>
          match mapGet r.2.objects objId with
          | some o => Quadtree.insert fuel o (q.remove objId)
          | none => q) r.2.quadtree
        some (InfiniteCanvas.incrementVersion
          { c with
            commandHistory := r.1,
            objects := r.2.objects,
            viewport := { c.viewport with quadtree := qt },
            batchMoveCmd := none })

/-- Exported beginBatchResize. -/
def beginBatchResize (s : Session) : Session :=
  match s with
  | none => none
  | some c => some { c with batchResizeCmd := some ⟨[], [], []⟩ }

/-- Exported addToBatchResize: capture old rectangle and snapped new
rectangle. -/
def addToBatchResize (objectId : ℕ) (newX newY newWidth newHeight : ℚ)
    (s : Session) : Session :=
  match s with
  | none => none
  | some c =>
    match c.batchResizeCmd with
    | none => some c
    | some br =>
      match mapGet c.objects objectId with
      | none => some c
      | some obj =>
        let snapped := c.grid.snap newX newY
        let sw := c.grid.snapValue newWidth
        let sh := c.grid.snapValue newHeight
        let br1 : BatchResizeState :=
          ⟨br.objectIds ++ [objectId],
           br.oldData ++ [obj.x, obj.y, obj.width, obj.height],
           br.newData ++ [snapped.1, snapped.2, sw, sh]⟩
        some { c with batchResizeCmd := some br1 }

/-- Exported endBatchResize, mirroring endBatchMove. -/
def endBatchResize (fuel : ℕ) (s : Session) : Session :=
  match s with
  | none => none
  | some c =>
    match c.batchResizeCmd with
    | none => some c
    | some br =>
      if br.isEmpty then some { c with batchResizeCmd := none }
      else
        let cmd := Command.batchResize br.objectIds br.oldData br.newData
        let r := c.commandHistory.execute fuel cmd ⟨c.objects, c.viewport.quadtree⟩
        let qt := br.objectIds.foldl (fun q objId =>
          match mapGet r.2.objects objId with
          | some o => Quadtree.insert fuel o (q.remove objId)
          | none => q) r.2.quadtree
        some (InfiniteCanvas.incrementVersion
          { c with
            commandHistory := r.1,
            objects := r.2.objects,
            viewport := { c.viewport with quadtree := qt },
            batchResizeCmd := none })

/-- Exported resizeObject: single-object resize with snapped position and
dimensions, then quadtree re-index and version bump. -/
def resizeObject (fuel : ℕ) (objectId : ℕ) (newX newY newWidth newHeight : ℚ)
    (s : Session) : Session :=
  match s with
  | none => none
  | some c =>
    match mapGet c.objects objectId with
    | none => some c
    | some obj =>
      let snapped := c.grid.snap newX newY
      let sw := c.grid.snapValue newWidth
      let sh := c.grid.snapValue newHeight
      let cmd := Command.resize objectId obj.x obj.y obj.width obj.height
        snapped.1 snapped.2 sw sh
      let r := c.commandHistory.execute fuel cmd ⟨c.objects, c.viewport.quadtree⟩
      let objNow := (mapGet r.2.objects objectId).getD obj
      let qt := Quadtree.insert fuel objNow (r.2.quadtree.remove objectId)
      some (InfiniteCanvas.incrementVersion
        { c with
          commandHistory := r.1,
          objects := r.2.objects,
          viewport := { c.viewport with quadtree := qt } })

/-- Exported deleteObject: no-op on an unknown id, else execute a
DeleteObjectCommand, splice the id out of the ordered list, bump the
version. -/
def deleteObject (fuel : ℕ) (objectId : ℕ) (s : Session) : Session :=
  match s with
  | none => none
  | some c =>
    match mapGet c.objects objectId with
    | none => some c
    | some obj =>
      let cmd := Command.deleteObject obj
      let r := c.commandHistory.execute fuel cmd ⟨c.objects, c.viewport.quadtree⟩
      some (InfiniteCanvas.incrementVersion
        { c with
          commandHistory := r.1,
          objects := r.2.objects,
          viewport := { c.viewport with quadtree := r.2.quadtree },
          objectList := c.objectList.erase objectId })

/-- Exported deleteObjects: no-op on an empty id array, else execute one
BatchDeleteCommand whose constructor captures the objects present at
construction time, splice each id out of the ordered list, bump the
version. -/
def deleteObjects (fuel : ℕ) (objectIds : List ℕ) (s : Session) : Session :=
  match s with
  | none => none
  | some c =>
    if objectIds.length == 0 then some c
    else
      let captured := objectIds.filterMap (fun k => mapGet c.objects k)
      let cmd := Command.batchDelete captured
      let r := c.commandHistory.execute fuel cmd ⟨c.objects, c.viewport.quadtree⟩
      some (InfiniteCanvas.incrementVersion
        { c with
          commandHistory := r.1,
          objects := r.2.objects,
          viewport := { c.viewport with quadtree := r.2.quadtree },
          objectList := objectIds.foldl (fun l k => l.erase k) c.objectList })

/-- Exported getObjectCount. -/
def getObjectCount (s : Session) : ℕ :=
  match s with
  | none => 0
  | some c => mapSize c.objects

/-- Exported getObjectIdAtIndex (sentinel 0 out of range). -/
def getObjectIdAtIndex (index : ℤ) (s : Session) : ℕ :=
  match s with
  | none => 0
  | some c =>
    if index < 0 ∨ (c.objectList.length : ℤ) ≤ index then 0
    else c.objectList.getD index.toNat 0

/-- Exported getObjectX (sentinel 0). -/
def getObjectX (objectId : ℕ) (s : Session) : ℚ :=
  match s with
  | none => 0
  | some c =>
    match mapGet c.objects objectId with
    | some o => o.x
    | none => 0

/-- Exported getObjectY (sentinel 0). -/
def getObjectY (objectId : ℕ) (s : Session) : ℚ :=
  match s with
  | none => 0
  | some c =>
    match mapGet c.objects objectId with
    | some o => o.y
    | none => 0

/-- Exported getObjectWidth (sentinel 0). -/
def getObjectWidth (objectId : ℕ) (s : Session) : ℚ :=
  match s with
  | none => 0
  | some c =>
    match mapGet c.objects objectId with
    | some o => o.width
    | none => 0

/-- Exported getObjectHeight (sentinel 0). -/
def getObjectHeight (objectId : ℕ) (s : Session) : ℚ :=
  match s with
  | none => 0
  | some c =>
    match mapGet c.objects objectId with
    | some o => o.height
    | none => 0

/-- Exported getObjectAssetId (sentinel 0). -/
def getObjectAssetId (objectId : ℕ) (s : Session) : ℕ :=
  match s with
  | none => 0
  | some c =>
    match mapGet c.objects objectId with
    | some o => o.assetId
    | none => 0

/-- Exported getObjectType (sentinel 0). -/
def getObjectType (objectId : ℕ) (s : Session) : ℕ :=
  match s with
  | none => 0
  | some c =>
    match mapGet c.objects objectId with
    | some o => o.objectType
    | none => 0

/-- Exported objectExists. -/
def objectExists (objectId : ℕ) (s : Session) : Bool :=
  match s with
  | none => false
  | some c => mapHas c.objects objectId

/-- Exported pan. -/
def pan (dx dy : ℚ) (s : Session) : Session :=
  match s with
  | none => none
  | some c =>
    some { c with viewport :=
      { c.viewport with camera := c.viewport.camera.pan dx dy } }

/-- Exported zoom. -/
def zoom (centerX centerY delta : ℚ) (s : Session) : Session :=
  match s with
  | none => none
  | some c =>
    some { c with viewport :=
      { c.viewport with camera := c.viewport.camera.zoomAt centerX centerY delta } }

/-- Exported updateViewport: recompute and store the visible list, return its
length (0 when no session). -/
def updateViewport (s : Session) : ℕ × Session :=
  match s with
  | none => (0, none)
  | some c =>
    let r := c.viewport.updateVisibleObjects
    (r.1, some { c with viewport := r.2 })

/-- Exported getVisibleCount. -/
def getVisibleCount (s : Session) : ℕ :=
  match s with
  | none => 0
  | some c => c.viewport.visibleObjects.length

/-- Exported getVisibleObjectId (sentinel 0). -/
def getVisibleObjectId (index : ℤ) (s : Session) : ℕ :=
  match s with
  | none => 0
  | some c =>
    if index < 0 ∨ (c.viewport.visibleObjects.length : ℤ) ≤ index then 0
    else match c.viewport.visibleObjects.get? index.toNat with
      | some o => o.id
      | none => 0

/-- Exported getVisibleObjectAssetId (sentinel 0). -/
def getVisibleObjectAssetId (index : ℤ) (s : Session) : ℕ :=
  match s with
  | none => 0
  | some c =>
    if index < 0 ∨ (c.viewport.visibleObjects.length : ℤ) ≤ index then 0
    else match c.viewport.visibleObjects.get? index.toNat with
      | some o => o.assetId
      | none => 0

/-- Exported getVisibleObjectType (sentinel 0). -/
def getVisibleObjectType (index : ℤ) (s : Session) : ℕ :=
  match s with
  | none => 0
  | some c =>
    if index < 0 ∨ (c.viewport.visibleObjects.length : ℤ) ≤ index then 0
    else match c.viewport.visibleObjects.get? index.toNat with
      | some o => o.objectType
      | none => 0

/-- Exported getTransformX: screen-space x of a visible object
(sentinel 0). -/
def getTransformX (index : ℤ) (s : Session) : ℚ :=
  match s with
  | none => 0
  | some c =>
    if index < 0 ∨ (c.viewport.visibleObjects.length : ℤ) ≤ index then 0
    else match c.viewport.visibleObjects.get? index.toNat with
      | some o =>
        (o.x - c.viewport.camera.x) * c.viewport.camera.zoom + c.viewport.canvasWidth / 2
      | none => 0

/-- Exported getTransformY (sentinel 0). -/
def getTransformY (index : ℤ) (s : Session) : ℚ :=
  match s with
  | none => 0
  | some c =>
    if index < 0 ∨ (c.viewport.visibleObjects.length : ℤ) ≤ index then 0
    else match c.viewport.visibleObjects.get? index.toNat with
      | some o =>
        (o.y - c.viewport.camera.y) * c.viewport.camera.zoom + c.viewport.canvasHeight / 2
      | none => 0

/-- Exported getTransformWidth (sentinel 0). -/
def getTransformWidth (index : ℤ) (s : Session) : ℚ :=
  match s with
  | none => 0
  | some c =>
    if index < 0 ∨ (c.viewport.visibleObjects.length : ℤ) ≤ index then 0
    else match c.viewport.visibleObjects.get? index.toNat with
      | some o => o.width * c.viewport.camera.zoom
      | none => 0

/-- Exported getTransformHeight (sentinel 0). -/
def getTransformHeight (index : ℤ) (s : Session) : ℚ :=
  match s with
  | none => 0
  | some c =>
    if index < 0 ∨ (c.viewport.visibleObjects.length : ℤ) ≤ index then 0
    else match c.viewport.visibleObjects.get? index.toNat with
      | some o => o.height * c.viewport.camera.zoom
      | none => 0

/-- Exported getTransformRotation (sentinel 0). -/
def getTransformRotation (index : ℤ) (s : Session) : ℚ :=
  match s with
  | none => 0
  | some c =>
    if index < 0 ∨ (c.viewport.visibleObjects.length : ℤ) ≤ index then 0
    else match c.viewport.visibleObjects.get? index.toNat with
      | some o => o.rotation
      | none => 0

/-- Exported undo: on history success, rebuild the quadtree from the current
store values, resynchronize the ordered id list from the store keys, bump the
version. -/
def undo (fuel : ℕ) (s : Session) : Bool × Session :=
  match s with
  | none => (false, none)
  | some c =>
    let r := c.commandHistory.undo fuel ⟨c.objects, c.viewport.quadtree⟩
    if r.1 then
      (true, some (InfiniteCanvas.incrementVersion
        { c with
          commandHistory := r.2.1,
          objects := r.2.2.objects,
          viewport := { c.viewport with
            quadtree := r.2.2.quadtree.rebuild fuel (mapValues r.2.2.objects) },
          objectList := mapKeys r.2.2.objects }))
    else (false, some c)

/-- Exported redo, mirroring undo. -/
def redo (fuel : ℕ) (s : Session) : Bool × Session :=
  match s with
  | none => (false, none)
  | some c =>
    let r := c.commandHistory.redo fuel ⟨c.objects, c.viewport.quadtree⟩
    if r.1 then
      (true, some (InfiniteCanvas.incrementVersion
        { c with
          commandHistory := r.2.1,
          objects := r.2.2.objects,
          viewport := { c.viewport with
            quadtree := r.2.2.quadtree.rebuild fuel (mapValues r.2.2.objects) },
          objectList := mapKeys r.2.2.objects }))
    else (false, some c)

/-- Exported canUndo. -/
def canUndo (s : Session) : Bool :=
  match s with
  | none => false
  | some c => c.commandHistory.canUndo

/-- Exported canRedo. -/
def canRedo (s : Session) : Bool :=
  match s with
  | none => false
  | some c => c.commandHistory.canRedo

/-- Exported setGridSnap. -/
def setGridSnap (enabled : Bool) (s : Session) : Session :=
  match s with
  | none => none
  | some c => some { c with grid := c.grid.setSnapEnabled enabled }

/-- Exported setGridSize. -/
def setGridSize (size : ℚ) (s : Session) : Session :=
  match s with
  | none => none
  | some c => some { c with grid := c.grid.setGridSize size }

/-- Exported getGridSize (sentinel 20, the default grid size). -/
def getGridSize (s : Session) : ℚ :=
  match s with
  | none => 20
  | some c => c.grid.gridSize

/-- Exported getStateVersion (sentinel 0). -/
def getStateVersion (s : Session) : ℕ :=
  match s with
  | none => 0
  | some c => c.stateVersion

/-- Exported getCameraX (sentinel 0). -/
def getCameraX (s : Session) : ℚ :=
  match s with
  | none => 0
  | some c => c.viewport.camera.x

/-- Exported getCameraY (sentinel 0). -/
def getCameraY (s : Session) : ℚ :=
  match s with
  | none => 0
  | some c => c.viewport.camera.y

/-- Exported getCameraZoom (sentinel 1). -/
def getCameraZoom (s : Session) : ℚ :=
  match s with
  | none => 1
  | some c => c.viewport.camera.zoom

/-- Exported getCanvasWidth (sentinel 0). -/
def getCanvasWidth (s : Session) : ℚ :=
  match s with
  | none => 0
  | some c => c.viewport.canvasWidth

/-- Exported getCanvasHeight (sentinel 0). -/
def getCanvasHeight (s : Session) : ℚ :=
  match s with
  | none => 0
  | some c => c.viewport.canvasHeight

/-- Exported updateCanvasSize. -/
def updateCanvasSize (width height : ℚ) (s : Session) : Session :=
  match s with
  | none => none
  | some c =>
    some { c with viewport :=
      { c.viewport with canvasWidth := width, canvasHeight := height } }

/-
Concrete quadtree scenario used by the C1 and C3 counterexamples: four small
objects in the southwest quadrant fill the root bucket, then a fifth object
spanning the whole boundary forces a subdivision; all values are exactly
representable in binary32. -/

/-- Small object in the southwest quadrant. -/
def o1c : CanvasObject := ⟨1, 10, 60, 5, 5, 0, 0, 0, 0, false⟩

/-- Small object in the southwest quadrant. -/
def o2c : CanvasObject := ⟨2, 20, 60, 5, 5, 0, 0, 0, 0, false⟩

/-- Small object in the southwest quadrant. -/
def o3c : CanvasObject := ⟨3, 10, 70, 5, 5, 0, 0, 0, 0, false⟩

/-- Small object in the southwest quadrant. -/
def o4c : CanvasObject := ⟨4, 20, 70, 5, 5, 0, 0, 0, 0, false⟩

/-- An object spanning the whole root boundary (it intersects all four child
quadrants). -/
def o5c : CanvasObject := ⟨5, 0, 0, 100, 100, 0, 0, 0, 0, false⟩

/-- The tree reached by inserting o1c..o5c in order into a fresh quadtree
over boundary (0, 0, 100, 100) with the default capacity 4. -/
def t5c : Quadtree :=
  ((((Quadtree.new 0 0 100 100 4).insert 20 o1c).insert 20 o2c).insert 20 o3c
     |>.insert 20 o4c).insert 20 o5c

/-- Query box inside the southwest quadrant that intersects only o5c. -/
def qrC1 : AABB := ⟨0, 90, 5, 5⟩

/-- Projection onto the southwest child of a subdivided node (identity on
leaves). -/
def southwestOf : QuadtreeNode → QuadtreeNode
  | .branch _ _ _ _ _ _ sw => sw
  | n => n

/-- Projection onto the northeast child of a subdivided node (identity on
leaves). -/
def northeastOf : QuadtreeNode → QuadtreeNode
  | .branch _ _ _ ne _ _ _ => ne
  | n => n

end MediaGrid

namespace MediaGrid

/-- C8: before createCanvas has ever been called the session is the null
sentinel, and every exported operation returns its zero/false/default
sentinel (addObject 0, undo/redo false, getGridSize its default 20,
getCameraZoom 1, and so on), changes no state, and is total (no error). -/
theorem C8_uninitialized_session_sentinels :
    (∀ fuel, clearCanvas fuel none = none) ∧
    (∀ fuel x y w h aid ot, addObject fuel x y w h aid ot none = (0, none)) ∧
    (∀ fuel objectId nx ny, moveObject fuel objectId nx ny none = none) ∧
    (beginBatchMove none = none) ∧
    (∀ objectId nx ny, addToBatchMove objectId nx ny none = none) ∧
    (∀ fuel, endBatchMove fuel none = none) ∧
    (beginBatchResize none = none) ∧
    (∀ objectId nx ny nw nh, addToBatchResize objectId nx ny nw nh none = none) ∧
    (∀ fuel, endBatchResize fuel none = none) ∧
    (∀ fuel objectId nx ny nw nh, resizeObject fuel objectId nx ny nw nh none = none) ∧
    (∀ fuel objectId, deleteObject fuel objectId none = none) ∧
    (∀ fuel ids, deleteObjects fuel ids none = none) ∧
    (getObjectCount none = 0) ∧
    (∀ i, getObjectIdAtIndex i none = 0) ∧
    (∀ objectId, getObjectX objectId none = 0) ∧
    (∀ objectId, getObjectY objectId none = 0) ∧
    (∀ objectId, getObjectWidth objectId none = 0) ∧
    (∀ objectId, getObjectHeight objectId none = 0) ∧
    (∀ objectId, getObjectAssetId objectId none = 0) ∧
    (∀ objectId, getObjectType objectId none = 0) ∧
    (∀ objectId, objectExists objectId none = false) ∧
    (∀ dx dy, pan dx dy none = none) ∧
    (∀ cx cy d, zoom cx cy d none = none) ∧
    (updateViewport none = (0, none)) ∧
    (getVisibleCount none = 0) ∧
    (∀ i, getVisibleObjectId i none = 0) ∧
    (∀ i, getVisibleObjectAssetId i none = 0) ∧
    (∀ i, getVisibleObjectType i none = 0) ∧
    (∀ i, getTransformX i none = 0) ∧
    (∀ i, getTransformY i none = 0) ∧
    (∀ i, getTransformWidth i none = 0) ∧
    (∀ i, getTransformHeight i none = 0) ∧
    (∀ i, getTransformRotation i none = 0) ∧
    (∀ fuel, undo fuel none = (false, none)) ∧
    (∀ fuel, redo fuel none = (false, none)) ∧
    (canUndo none = false) ∧
    (canRedo none = false) ∧
    (∀ e, setGridSnap e none = none) ∧
    (∀ sz, setGridSize sz none = none) ∧
    (getGridSize none = 20) ∧
    (getStateVersion none = 0) ∧
    (getCameraX none = 0) ∧
    (getCameraY none = 0) ∧
    (getCameraZoom none = 1) ∧
    (getCanvasWidth none = 0) ∧
    (getCanvasHeight none = 0) ∧
    (∀ w h, updateCanvasSize w h none = none) :=
  ⟨fun _ => rfl, fun _ _ _ _ _ _ _ => rfl, fun _ _ _ _ => rfl, rfl,
   fun _ _ _ => rfl, fun _ => rfl, rfl, fun _ _ _ _ _ => rfl, fun _ => rfl,
   fun _ _ _ _ _ _ => rfl, fun _ _ => rfl, fun _ _ => rfl, rfl,
   fun _ => rfl, fun _ => rfl, fun _ => rfl, fun _ => rfl, fun _ => rfl,
   fun _ => rfl, fun _ => rfl, fun _ => rfl, fun _ _ => rfl, fun _ _ _ => rfl,
   rfl, rfl, fun _ => rfl, fun _ => rfl, fun _ => rfl, fun _ => rfl,
   fun _ => rfl, fun _ => rfl, fun _ => rfl, fun _ => rfl, fun _ => rfl,
   fun _ => rfl, rfl, rfl, fun _ => rfl, fun _ => rfl, rfl, rfl, rfl, rfl,
   rfl, rfl, rfl, fun _ _ => rfl⟩

/-- C9: ending a batch move or batch resize whose accumulated entry list is
empty discards the batch without touching the history, the objects, the
quadtree or the state version: the resulting session differs from the input
only in the cleared batch slot. -/
theorem C9_empty_batch_discarded (fuel : ℕ) (c : InfiniteCanvas)
    (bm : BatchMoveState) (br : BatchResizeState) :
    (c.batchMoveCmd = some bm → bm.objectIds = [] →
      endBatchMove fuel (some c) = some { c with batchMoveCmd := none }) ∧
    (c.batchResizeCmd = some br → br.objectIds = [] →
      endBatchResize fuel (some c) = some { c with batchResizeCmd := none }) := by
  constructor
  · intro hbm hids
    simp [endBatchMove, hbm, BatchMoveState.isEmpty, hids]
  · intro hbr hids
    simp [endBatchResize, hbr, BatchResizeState.isEmpty, hids]

/-- C9 witness: a concrete initialized session holding empty batch commands
in both slots is returned with the slot cleared and nothing else changed. -/
theorem C9_empty_batch_discarded_witness :
    (endBatchMove 7 (some { InfiniteCanvas.new 800 600 20 with
        batchMoveCmd := some ⟨[], [], []⟩, batchResizeCmd := some ⟨[], [], []⟩ }) =
      some { InfiniteCanvas.new 800 600 20 with
        batchMoveCmd := none, batchResizeCmd := some ⟨[], [], []⟩ }) ∧
    (endBatchResize 7 (some { InfiniteCanvas.new 800 600 20 with
        batchMoveCmd := some ⟨[], [], []⟩, batchResizeCmd := some ⟨[], [], []⟩ }) =
      some { InfiniteCanvas.new 800 600 20 with
        batchMoveCmd := some ⟨[], [], []⟩, batchResizeCmd := none }) :=
  ⟨(C9_empty_batch_discarded 7
      { InfiniteCanvas.new 800 600 20 with
        batchMoveCmd := some ⟨[], [], []⟩, batchResizeCmd := some ⟨[], [], []⟩ }
      ⟨[], [], []⟩ ⟨[], [], []⟩).1 rfl rfl,
   (C9_empty_batch_discarded 7
      { InfiniteCanvas.new 800 600 20 with
        batchMoveCmd := some ⟨[], [], []⟩, batchResizeCmd := some ⟨[], [], []⟩ }
      ⟨[], [], []⟩ ⟨[], [], []⟩).2 rfl rfl⟩

/-- C7: the zoom-anchor claim fails on the code.  Starting from the default
camera (0, 0, zoom 1) on an 800 x 600 canvas, zoomAt(100, 0, +1) moves the
world point under screen point (100, 0) from (-300, -300) to (-250, -150):
the re-centering formula newX = centerX - (centerX - oldX) * (newZoom /
oldZoom) treats the camera as a screen-space offset, but this camera is a
world-space center with screenToWorld dividing the offset from the canvas
center by zoom, so the anchor drifts by 50 world units here (far outside any
float epsilon; the rational computation is exact in binary32). -/
theorem C7_zoomAt_moves_anchor :
    Camera.screenToWorld (⟨0, 0, 1⟩ : Camera) 100 0 800 600 = (-300, -300) ∧
    Camera.zoomAt (⟨0, 0, 1⟩ : Camera) 100 0 1 = ⟨-100, 0, 2⟩ ∧
    Camera.screenToWorld (Camera.zoomAt (⟨0, 0, 1⟩ : Camera) 100 0 1)
        100 0 800 600 = (-250, -150) ∧
    Camera.screenToWorld (Camera.zoomAt (⟨0, 0, 1⟩ : Camera) 100 0 1)
        100 0 800 600 ≠
      Camera.screenToWorld (⟨0, 0, 1⟩ : Camera) 100 0 800 600 := by
  refine ⟨by with_unfolding_all decide, by with_unfolding_all decide, by with_unfolding_all decide, by with_unfolding_all decide⟩

/-- C3 counterexample: in the concrete tree t5c (reached purely by inserts),
the root is subdivided and o5c's bounds intersect the southwest child's
boundary, yet o5c is stored only under the first accepting child
(northeast): it is not inserted into each intersecting child and is not
discoverable from the southwest subtree. -/
theorem C3_counterexample_single_child_placement :
    t5c.root.memObj o5c = true ∧
    AABB.intersects (northeastOf t5c.root).boundary o5c.getBounds = true ∧
    (northeastOf t5c.root).memObj o5c = true ∧
    AABB.intersects (southwestOf t5c.root).boundary o5c.getBounds = true ∧
    (southwestOf t5c.root).memObj o5c = false := by
  refine ⟨by with_unfolding_all decide, by with_unfolding_all decide, by with_unfolding_all decide, by with_unfolding_all decide, by with_unfolding_all decide⟩

/-- C3 amended: insert into a subdivided node is single-placement: when the
boundary admits the object and the first child (northeast) accepts it, the
insert returns immediately and the other three children are left completely
untouched, regardless of how many of their boundaries intersect the object's
bounds.  (Only the subdivide step offers a bucket object to all four
children.) -/
theorem C3_insert_short_circuits (fuel : ℕ) (obj : CanvasObject) (b : AABB)
    (cap : ℕ) (objs : List CanvasObject) (ne nw se sw : QuadtreeNode)
    (hb : b.intersects obj.getBounds = true)
    (hne : (QuadtreeNode.insert fuel obj ne).1 = true) :
    QuadtreeNode.insert (fuel + 1) obj (.branch b cap objs ne nw se sw) =
      (true, .branch b cap objs (QuadtreeNode.insert fuel obj ne).2 nw se sw) := by
  simp [QuadtreeNode.insert, insertStep, insertChildren, hb, hne]

/-- Invariant tying the two query accumulators together: the collected
objects carry pairwise-distinct ids and every collected id has been recorded
in the seen set. -/
def goodAcc (found : List CanvasObject) (seen : List ℕ) : Prop :=
  ((found.map fun o => o.id).Nodup) ∧ ∀ o ∈ found, o.id ∈ seen

/-- The bucket scan preserves the accumulator invariant, and every collected
object either was already present or comes from the bucket and intersects
the range. -/
theorem collectObjects_good (range : AABB) :
    ∀ (objs found : List CanvasObject) (seen : List ℕ), goodAcc found seen →
      goodAcc (collectObjects range objs (found, seen)).1
        (collectObjects range objs (found, seen)).2 ∧
      ∀ o ∈ (collectObjects range objs (found, seen)).1,
        o ∈ found ∨ (o ∈ objs ∧ range.intersects o.getBounds = true) := by
  intro objs
  induction objs with
  | nil => intro found seen hg; exact ⟨hg, fun o ho => Or.inl ho⟩
  | cons o rest ih =>
    intro found seen hg
    by_cases hc : (!(seen.contains o.id) && range.intersects o.getBounds) = true
    · have hseen : o.id ∉ seen := by
        have h1 := (Bool.and_eq_true _ _).mp hc |>.1
        simp only [Bool.not_eq_true'] at h1
        intro hmem
        have h2 : seen.contains o.id = true := by simpa using hmem
        rw [h2] at h1
        exact Bool.noConfusion h1
      have hinter : range.intersects o.getBounds = true :=
        ((Bool.and_eq_true _ _).mp hc).2
      have hg' : goodAcc (found ++ [o]) (seen ++ [o.id]) := by
        constructor
        · rw [List.map_append, List.nodup_append]
          refine ⟨hg.1, by simp, ?_⟩
          intro i hi hj
          simp only [List.map_cons, List.map_nil, List.mem_singleton] at hj
          obtain ⟨o', ho', hid⟩ := List.mem_map.mp hi
          apply hseen
          rw [← hj, ← hid]
          exact hg.2 o' ho'
        · intro o' ho'
          rcases List.mem_append.mp ho' with h | h
          · exact List.mem_append.mpr (Or.inl (hg.2 o' h))
          · simp only [List.mem_singleton] at h; subst h; simp
      have hstep : collectObjects range (o :: rest) (found, seen)
          = collectObjects range rest (found ++ [o], seen ++ [o.id]) := by
        simp only [collectObjects]
        rw [if_pos hc]
      rw [hstep]
      obtain ⟨hg2, hprov⟩ := ih (found ++ [o]) (seen ++ [o.id]) hg'
      refine ⟨hg2, ?_⟩
      intro o' ho'
      rcases hprov o' ho' with h | h
      · rcases List.mem_append.mp h with h | h
        · exact Or.inl h
        · simp only [List.mem_singleton] at h; subst h
          exact Or.inr ⟨List.mem_cons_self _ _, hinter⟩
      · exact Or.inr ⟨List.mem_cons_of_mem _ h.1, h.2⟩
    · have hstep : collectObjects range (o :: rest) (found, seen)
          = collectObjects range rest (found, seen) := by
        simp only [collectObjects]
        rw [if_neg hc]
      rw [hstep]
      obtain ⟨hg2, hprov⟩ := ih found seen hg
      refine ⟨hg2, ?_⟩
      intro o' ho'
      rcases hprov o' ho' with h | h
      · exact Or.inl h
      · exact Or.inr ⟨List.mem_cons_of_mem _ h.1, h.2⟩

/-- The recursive query preserves the accumulator invariant, and every
collected object either was already present or is stored in the visited
subtree and intersects the range. -/
theorem query_good (range : AABB) :
    ∀ (n : QuadtreeNode) (found : List CanvasObject) (seen : List ℕ),
      goodAcc found seen →
      goodAcc (QuadtreeNode.query range n (found, seen)).1
        (QuadtreeNode.query range n (found, seen)).2 ∧
      ∀ o ∈ (QuadtreeNode.query range n (found, seen)).1,
        o ∈ found ∨ (n.memObj o = true ∧ range.intersects o.getBounds = true) := by
  intro n
  induction n with
  | leaf b cap objs =>
    intro found seen hg
    by_cases hb : b.intersects range = true
    · have hstep : QuadtreeNode.query range (.leaf b cap objs) (found, seen)
          = collectObjects range objs (found, seen) := by
        simp [QuadtreeNode.query, hb]
      rw [hstep]
      obtain ⟨hg2, hprov⟩ := collectObjects_good range objs found seen hg
      refine ⟨hg2, ?_⟩
      intro o ho
      rcases hprov o ho with h | h
      · exact Or.inl h
      · refine Or.inr ⟨?_, h.2⟩
        simp [QuadtreeNode.memObj, h.1]
    · have hb' : b.intersects range = false := by
        simpa using hb
      have hstep : QuadtreeNode.query range (.leaf b cap objs) (found, seen)
          = (found, seen) := by
        simp [QuadtreeNode.query, hb']
      rw [hstep]
      exact ⟨hg, fun o ho => Or.inl ho⟩
  | branch b cap objs ne nw se sw ihne ihnw ihse ihsw =>
    intro found seen hg
    by_cases hb : b.intersects range = true
    · have hstep : QuadtreeNode.query range (.branch b cap objs ne nw se sw) (found, seen)
          = QuadtreeNode.query range sw
              (QuadtreeNode.query range se
                (QuadtreeNode.query range nw
                  (QuadtreeNode.query range ne
                    (collectObjects range objs (found, seen))))) := by
        simp [QuadtreeNode.query, hb]
      rw [hstep]
      obtain ⟨hg1, hp1⟩ := collectObjects_good range objs found seen hg
      obtain ⟨hg2, hp2⟩ := ihne _ _ hg1
      obtain ⟨hg3, hp3⟩ := ihnw _ _ hg2
      obtain ⟨hg4, hp4⟩ := ihse _ _ hg3
      obtain ⟨hg5, hp5⟩ := ihsw _ _ hg4
      refine ⟨hg5, ?_⟩
      intro o ho
      have memOf : ∀ h : o ∈ objs ∨ ne.memObj o = true ∨ nw.memObj o = true ∨
          se.memObj o = true ∨ sw.memObj o = true,
          QuadtreeNode.memObj o (.branch b cap objs ne nw se sw) = true := by
        intro h
        simp only [QuadtreeNode.memObj, Bool.or_eq_true, decide_eq_true_eq]
        tauto
      rcases hp5 o ho with h5 | h5
      · rcases hp4 o h5 with h4 | h4
        · rcases hp3 o h4 with h3 | h3
          · rcases hp2 o h3 with h2 | h2
            · rcases hp1 o h2 with h1 | h1
              · exact Or.inl h1
              · exact Or.inr ⟨memOf (Or.inl h1.1), h1.2⟩
            · exact Or.inr ⟨memOf (Or.inr (Or.inl h2.1)), h2.2⟩
          · exact Or.inr ⟨memOf (Or.inr (Or.inr (Or.inl h3.1))), h3.2⟩
        · exact Or.inr ⟨memOf (Or.inr (Or.inr (Or.inr (Or.inl h4.1)))), h4.2⟩
      · exact Or.inr ⟨memOf (Or.inr (Or.inr (Or.inr (Or.inr h5.1)))), h5.2⟩
    · have hb' : b.intersects range = false := by simpa using hb
      have hstep : QuadtreeNode.query range (.branch b cap objs ne nw se sw) (found, seen)
          = (found, seen) := by
        simp [QuadtreeNode.query, hb']
      rw [hstep]
      exact ⟨hg, fun o ho => Or.inl ho⟩

/-- C1 amended: for every quadtree content and every query AABB,
queryViewport(aabb) is sound and duplicate-free: the returned ids are
pairwise distinct, and every returned object is stored in the tree and
intersects aabb under the inclusive test.  (Completeness fails: stored
intersecting objects can be omitted; see the counterexample.) -/
theorem C1_query_sound_no_duplicates (t : Quadtree) (range : AABB) :
    ((t.queryViewport range).map fun o => o.id).Nodup ∧
    ∀ o ∈ t.queryViewport range,
      t.root.memObj o = true ∧ range.intersects o.getBounds = true := by
  have hg : goodAcc [] [] := ⟨List.nodup_nil, by simp⟩
  obtain ⟨hgood, hprov⟩ := query_good range t.root [] [] hg
  refine ⟨hgood.1, ?_⟩
  intro o ho
  rcases hprov o ho with h | h
  · simp at h
  · exact h

/-- C1 counterexample: in the concrete tree t5c (reached purely by insert
calls), object o5c is stored and its bounds intersect the query box qrC1,
yet queryViewport(qrC1) omits it (the query in fact returns the empty list),
because the post-subdivision insert placed o5c only under the northeast
child while qrC1 only meets the southwest quadrant. -/
theorem C1_counterexample_query_omission :
    t5c.root.memObj o5c = true ∧
    AABB.intersects o5c.getBounds qrC1 = true ∧
    (t5c.queryViewport qrC1).map (fun o => o.id) = [] ∧
    o5c.id ∉ (t5c.queryViewport qrC1).map (fun o => o.id) := by
  refine ⟨by with_unfolding_all decide, by with_unfolding_all decide,
    by with_unfolding_all decide, by with_unfolding_all decide⟩

/-- C3 amended witness: a concrete subdivided node whose northeast child
accepts the object; the southeast and southwest children (whose boundaries
also intersect the object) stay untouched. -/
theorem C3_insert_short_circuits_witness :
    QuadtreeNode.insert 6 o5c
        (.branch ⟨0, 0, 100, 100⟩ 4 []
          (.leaf ⟨50, 0, 50, 50⟩ 4 []) (.leaf ⟨0, 0, 50, 50⟩ 4 [])
          (.leaf ⟨50, 50, 50, 50⟩ 4 []) (.leaf ⟨0, 50, 50, 50⟩ 4 [])) =
      (true, .branch ⟨0, 0, 100, 100⟩ 4 []
        ((QuadtreeNode.insert 5 o5c (.leaf ⟨50, 0, 50, 50⟩ 4 [])).2)
        (.leaf ⟨0, 0, 50, 50⟩ 4 [])
        (.leaf ⟨50, 50, 50, 50⟩ 4 []) (.leaf ⟨0, 50, 50, 50⟩ 4 [])) :=
  C3_insert_short_circuits 5 o5c ⟨0, 0, 100, 100⟩ 4 []
    (.leaf ⟨50, 0, 50, 50⟩ 4 []) (.leaf ⟨0, 0, 50, 50⟩ 4 [])
    (.leaf ⟨50, 50, 50, 50⟩ 4 []) (.leaf ⟨0, 50, 50, 50⟩ 4 [])
    (by with_unfolding_all decide) (by with_unfolding_all decide)

/-- Folding CommandHistory.execute over a command list (the shape of
"executing N commands" in the history-cap property). -/
def runCommands (fuel : ℕ) (cmds : List Command) (p : CommandHistory × CmdState) :
    CommandHistory × CmdState :=
  cmds.foldl (fun q cmd => q.1.execute fuel cmd q.2) p

/-- Iterating CommandHistory.undo k times (dropping the returned booleans). -/
def undoIter (fuel : ℕ) : ℕ → CommandHistory × CmdState → CommandHistory × CmdState
  | 0, p => p
  | k + 1, p => undoIter fuel k ((p.1.undo fuel p.2).2)

/-- One execute step from a cursor-at-end state: the cursor stays at the end
and the length becomes min (length + 1) maxHistory. -/
theorem execute_step_inv (fuel : ℕ) (cmd : Command) (h : CommandHistory)
    (st : CmdState)
    (hcur : h.currentIndex = (h.history.length : ℤ) - 1)
    (hlen : h.history.length ≤ h.maxHistory) :
    (h.execute fuel cmd st).1.currentIndex
        = ((h.execute fuel cmd st).1.history.length : ℤ) - 1 ∧
    (h.execute fuel cmd st).1.history.length = min (h.history.length + 1) h.maxHistory ∧
    (h.execute fuel cmd st).1.maxHistory = h.maxHistory := by
  have htake : (h.currentIndex + 1).toNat = h.history.length := by omega
  have htake2 : h.history.take (h.currentIndex + 1).toNat = h.history := by
    rw [htake]; exact List.take_length h.history
  simp only [CommandHistory.execute, htake2]
  by_cases hev : h.maxHistory < (h.history ++ [cmd]).length
  · rw [if_pos hev]
    simp only [List.length_append, List.length_cons, List.length_nil] at hev
    refine ⟨?_, ?_, rfl⟩ <;> simp <;> omega
  · rw [if_neg hev]
    simp only [List.length_append, List.length_cons, List.length_nil, not_lt] at hev
    refine ⟨?_, ?_, rfl⟩ <;> simp <;> omega

/-- Running a command list from a cursor-at-end state keeps the cursor at the
end, preserves maxHistory and caps the length at maxHistory. -/
theorem runCommands_inv (fuel : ℕ) :
    ∀ (cmds : List Command) (h : CommandHistory) (st : CmdState),
      h.currentIndex = (h.history.length : ℤ) - 1 →
      h.history.length ≤ h.maxHistory →
      (runCommands fuel cmds (h, st)).1.currentIndex
          = ((runCommands fuel cmds (h, st)).1.history.length : ℤ) - 1 ∧
      (runCommands fuel cmds (h, st)).1.history.length
          = min (h.history.length + cmds.length) h.maxHistory ∧
      (runCommands fuel cmds (h, st)).1.maxHistory = h.maxHistory := by
  intro cmds
  induction cmds with
  | nil =>
    intro h st hcur hlen
    simp only [runCommands, List.foldl_nil, List.length_nil]
    exact ⟨hcur, by omega, by trivial⟩
  | cons c cs ih =>
    intro h st hcur hlen
    obtain ⟨h1, h2, h3⟩ := execute_step_inv fuel c h st hcur hlen
    have hstep : runCommands fuel (c :: cs) (h, st)
        = runCommands fuel cs ((h.execute fuel c st).1, (h.execute fuel c st).2) := by
      simp [runCommands]
    rw [hstep]
    obtain ⟨g1, g2, g3⟩ := ih (h.execute fuel c st).1 (h.execute fuel c st).2 h1 (by omega)
    refine ⟨g1, ?_, by omega⟩
    rw [g2, h2, h3]
    simp
    omega

/-- Iterated undo from a state whose cursor is at least k - 1 decrements the
cursor k times and never touches the entry list or the cap. -/
theorem undoIter_cursor (fuel : ℕ) :
    ∀ (k : ℕ) (p : CommandHistory × CmdState),
      (k : ℤ) ≤ p.1.currentIndex + 1 →
      (undoIter fuel k p).1.currentIndex = p.1.currentIndex - k ∧
      (undoIter fuel k p).1.history = p.1.history ∧
      (undoIter fuel k p).1.maxHistory = p.1.maxHistory := by
  intro k
  induction k with
  | zero =>
    intro p hk
    refine ⟨?_, rfl, rfl⟩
    show p.1.currentIndex = p.1.currentIndex - ((0 : ℕ) : ℤ)
    omega
  | succ k ih =>
    intro p hk
    have hge : ¬ p.1.currentIndex < 0 := by omega
    have hstep : (p.1.undo fuel p.2).2
        = ({ p.1 with currentIndex := p.1.currentIndex - 1 },
           ((p.1.history.getD p.1.currentIndex.toNat dummyCommand).undoC fuel p.2)) := by
      simp [CommandHistory.undo, hge]
    have hrec : undoIter fuel (k + 1) p = undoIter fuel k ((p.1.undo fuel p.2).2) := rfl
    rw [hrec, hstep]
    obtain ⟨g1, g2, g3⟩ := ih ({ p.1 with currentIndex := p.1.currentIndex - 1 },
        ((p.1.history.getD p.1.currentIndex.toNat dummyCommand).undoC fuel p.2))
      (by show (k : ℤ) ≤ p.1.currentIndex - 1 + 1; omega)
    refine ⟨?_, g2, g3⟩
    rw [g1]
    show p.1.currentIndex - 1 - (k : ℤ) = p.1.currentIndex - ((k + 1 : ℕ) : ℤ)
    push_cast
    ring

/-- C5: with the default cap maxHistory = 100, executing any 150 commands on
a fresh CommandHistory leaves exactly 100 entries with the cursor on the
last one (index 99); from there 100 successive undo calls all return true
and the 101st returns false; and from any full cursor-at-end history an
execute evicts the oldest entry (index 0), appends the new command and keeps
the cursor at 99. -/
theorem C5_history_cap (fuel : ℕ) (cmds : List Command) (st : CmdState)
    (h150 : cmds.length = 150) :
    (runCommands fuel cmds (CommandHistory.new, st)).1.history.length = 100 ∧
    (runCommands fuel cmds (CommandHistory.new, st)).1.currentIndex = 99 ∧
    (∀ k : ℕ, k < 100 →
      ((undoIter fuel k (runCommands fuel cmds (CommandHistory.new, st))).1.undo fuel
        (undoIter fuel k (runCommands fuel cmds (CommandHistory.new, st))).2).1 = true) ∧
    ((undoIter fuel 100 (runCommands fuel cmds (CommandHistory.new, st))).1.undo fuel
      (undoIter fuel 100 (runCommands fuel cmds (CommandHistory.new, st))).2).1 = false ∧
    (∀ (h : CommandHistory) (c : Command) (s2 : CmdState),
      h.maxHistory = 100 → h.history.length = 100 → h.currentIndex = 99 →
      (h.execute fuel c s2).1.history = h.history.drop 1 ++ [c] ∧
      (h.execute fuel c s2).1.currentIndex = 99 ∧
      (h.execute fuel c s2).1.history.length = 100) := by
  obtain ⟨g1, g2, g3⟩ := runCommands_inv fuel cmds CommandHistory.new st
    (by simp [CommandHistory.new]) (by simp [CommandHistory.new])
  have hlen : (runCommands fuel cmds (CommandHistory.new, st)).1.history.length = 100 := by
    rw [g2, h150]; simp [CommandHistory.new]
  have hcur : (runCommands fuel cmds (CommandHistory.new, st)).1.currentIndex = 99 := by
    rw [g1, hlen]; norm_num
  refine ⟨hlen, hcur, ?_, ?_, ?_⟩
  · intro k hk
    obtain ⟨u1, u2, u3⟩ := undoIter_cursor fuel k
      (runCommands fuel cmds (CommandHistory.new, st)) (by rw [hcur]; omega)
    have hnn : ¬ (undoIter fuel k
        (runCommands fuel cmds (CommandHistory.new, st))).1.currentIndex < 0 := by
      rw [u1, hcur]; omega
    simp [CommandHistory.undo, hnn]
  · obtain ⟨u1, u2, u3⟩ := undoIter_cursor fuel 100
      (runCommands fuel cmds (CommandHistory.new, st)) (by rw [hcur]; omega)
    have hnn : (undoIter fuel 100
        (runCommands fuel cmds (CommandHistory.new, st))).1.currentIndex < 0 := by
      rw [u1, hcur]; omega
    simp [CommandHistory.undo, hnn]
  · intro h c s2 hmax hl hcu
    have htake : (h.currentIndex + 1).toNat = h.history.length := by omega
    have htake2 : h.history.take (h.currentIndex + 1).toNat = h.history := by
      rw [htake]; exact List.take_length h.history
    have hdrop : (h.history ++ [c]).drop 1 = h.history.drop 1 ++ [c] := by
      refine List.drop_append_of_le_length ?_
      omega
    simp only [CommandHistory.execute, htake2]
    have hev : h.maxHistory < (h.history ++ [c]).length := by
      simp only [List.length_append, List.length_cons, List.length_nil]
      omega
    rw [if_pos hev]
    refine ⟨hdrop, ?_, ?_⟩
    · show h.currentIndex + 1 - 1 = 99
      omega
    · show ((h.history ++ [c]).drop 1).length = 100
      simp only [List.length_drop, List.length_append, List.length_cons, List.length_nil]
      omega

/-- C5 witness: 150 copies of a concrete command on an empty store. -/
theorem C5_history_cap_witness :
    (runCommands 3 (List.replicate 150 dummyCommand)
        (CommandHistory.new, ⟨[], Quadtree.new 0 0 100 100 4⟩)).1.history.length = 100 ∧
    (runCommands 3 (List.replicate 150 dummyCommand)
        (CommandHistory.new, ⟨[], Quadtree.new 0 0 100 100 4⟩)).1.currentIndex = 99 ∧
    ((undoIter 3 99 (runCommands 3 (List.replicate 150 dummyCommand)
        (CommandHistory.new, ⟨[], Quadtree.new 0 0 100 100 4⟩))).1.undo 3
      (undoIter 3 99 (runCommands 3 (List.replicate 150 dummyCommand)
        (CommandHistory.new, ⟨[], Quadtree.new 0 0 100 100 4⟩))).2).1 = true ∧
    ((undoIter 3 100 (runCommands 3 (List.replicate 150 dummyCommand)
        (CommandHistory.new, ⟨[], Quadtree.new 0 0 100 100 4⟩))).1.undo 3
      (undoIter 3 100 (runCommands 3 (List.replicate 150 dummyCommand)
        (CommandHistory.new, ⟨[], Quadtree.new 0 0 100 100 4⟩))).2).1 = false ∧
    ((⟨List.replicate 100 dummyCommand, 99, 100⟩ : CommandHistory).execute 3
        dummyCommand ⟨[], Quadtree.new 0 0 100 100 4⟩).1.history
      = (List.replicate 100 dummyCommand).drop 1 ++ [dummyCommand] := by
  have h := C5_history_cap 3 (List.replicate 150 dummyCommand)
    ⟨[], Quadtree.new 0 0 100 100 4⟩ (by simp)
  exact ⟨h.1, h.2.1, h.2.2.1 99 (by omega), h.2.2.2.1,
    (h.2.2.2.2 ⟨List.replicate 100 dummyCommand, 99, 100⟩ dummyCommand
      ⟨[], Quadtree.new 0 0 100 100 4⟩ rfl (by simp) rfl).1⟩

/-- C6: from any history state in which undo succeeds, executing a new
command discards the redo branch: redo then returns false, and the history
length is at most its pre-execute length plus one. -/
theorem C6_redo_branch_invalidation (fuel : ℕ) (h : CommandHistory)
    (st : CmdState) (c2 : Command)
    (hsucc : (h.undo fuel st).1 = true) :
    (((h.undo fuel st).2.1.execute fuel c2 (h.undo fuel st).2.2).1.redo fuel
        ((h.undo fuel st).2.1.execute fuel c2 (h.undo fuel st).2.2).2).1 = false ∧
    ((h.undo fuel st).2.1.execute fuel c2 (h.undo fuel st).2.2).1.history.length
        ≤ h.history.length + 1 := by
  have hge : ¬ h.currentIndex < 0 := by
    intro hlt
    rw [CommandHistory.undo, if_pos hlt] at hsucc
    exact Bool.noConfusion hsucc
  have hu : (h.undo fuel st).2.1 = { h with currentIndex := h.currentIndex - 1 } := by
    simp [CommandHistory.undo, hge]
  rw [hu]
  simp only [CommandHistory.execute]
  have htk : ({ h with currentIndex := h.currentIndex - 1 } : CommandHistory).history.take
      (({ h with currentIndex := h.currentIndex - 1 } : CommandHistory).currentIndex + 1).toNat
      = h.history.take (h.currentIndex - 1 + 1).toNat := rfl
  rw [htk]
  have hlentake : (h.history.take (h.currentIndex - 1 + 1).toNat).length
      = min (h.currentIndex - 1 + 1).toNat h.history.length := by
    simp
  by_cases hev : ({ h with currentIndex := h.currentIndex - 1 } : CommandHistory).maxHistory
      < (h.history.take (h.currentIndex - 1 + 1).toNat ++ [c2]).length
  · rw [if_pos hev]
    constructor
    · rw [CommandHistory.redo]
      rw [if_pos ?cond]
      case cond =>
        show ((((h.history.take (h.currentIndex - 1 + 1).toNat ++ [c2]).drop 1).length : ℤ) - 1
            ≤ h.currentIndex - 1 + 1 - 1)
        simp only [List.length_drop, List.length_append, List.length_cons, List.length_nil,
          hlentake]
        omega
    · show (((h.history.take (h.currentIndex - 1 + 1).toNat ++ [c2]).drop 1).length)
          ≤ h.history.length + 1
      simp only [List.length_drop, List.length_append, List.length_cons, List.length_nil,
        hlentake]
      omega
  · rw [if_neg hev]
    constructor
    · rw [CommandHistory.redo]
      rw [if_pos ?cond2]
      case cond2 =>
        show (((h.history.take (h.currentIndex - 1 + 1).toNat ++ [c2]).length : ℤ) - 1
            ≤ h.currentIndex - 1 + 1)
        simp only [List.length_append, List.length_cons, List.length_nil, hlentake]
        omega
    · show ((h.history.take (h.currentIndex - 1 + 1).toNat ++ [c2]).length)
          ≤ h.history.length + 1
      simp only [List.length_append, List.length_cons, List.length_nil, hlentake]
      omega

/-- C6 witness: a one-entry history whose undo succeeds, then a new command;
redo is refused and the length stays at most two. -/
theorem C6_redo_branch_invalidation_witness :
    ((((⟨[dummyCommand], 0, 100⟩ : CommandHistory).undo 3
          ⟨[], Quadtree.new 0 0 100 100 4⟩).2.1.execute 3 dummyCommand
        ((⟨[dummyCommand], 0, 100⟩ : CommandHistory).undo 3
          ⟨[], Quadtree.new 0 0 100 100 4⟩).2.2).1.redo 3
      (((⟨[dummyCommand], 0, 100⟩ : CommandHistory).undo 3
          ⟨[], Quadtree.new 0 0 100 100 4⟩).2.1.execute 3 dummyCommand
        ((⟨[dummyCommand], 0, 100⟩ : CommandHistory).undo 3
          ⟨[], Quadtree.new 0 0 100 100 4⟩).2.2).2).1 = false ∧
    (((⟨[dummyCommand], 0, 100⟩ : CommandHistory).undo 3
        ⟨[], Quadtree.new 0 0 100 100 4⟩).2.1.execute 3 dummyCommand
      ((⟨[dummyCommand], 0, 100⟩ : CommandHistory).undo 3
        ⟨[], Quadtree.new 0 0 100 100 4⟩).2.2).1.history.length
      ≤ ([dummyCommand] : List Command).length + 1 :=
  C6_redo_branch_invalidation 3 ⟨[dummyCommand], 0, 100⟩
    ⟨[], Quadtree.new 0 0 100 100 4⟩ dummyCommand (by with_unfolding_all decide)

/-- Map.get on a cons cell. -/
theorem mapGet_cons (p : ℕ × CanvasObject) (rest : ObjStore) (k : ℕ) :
    mapGet (p :: rest) k = if p.1 = k then some p.2 else mapGet rest k := by
  by_cases h : p.1 = k <;> simp [mapGet, List.find?_cons, h]

/-- Map.get after Map.set, characterized pointwise. -/
theorem mapGet_mapSet (s : ObjStore) (k : ℕ) (v : CanvasObject) (q : ℕ) :
    mapGet (mapSet s k v) q = if q = k then some v else mapGet s q := by
  induction s with
  | nil =>
    by_cases h : q = k <;> simp [mapSet, mapGet_cons, mapGet, h]
    exact fun hq => absurd hq.symm h
  | cons p rest ih =>
    by_cases hpk : p.1 = k
    · have hstep : mapSet (p :: rest) k v = (k, v) :: rest := by
        simp [mapSet, hpk]
      rw [hstep, mapGet_cons, mapGet_cons]
      by_cases hq : q = k
      · simp [hq]
      · have h1 : ¬ k = q := fun hh => hq hh.symm
        have h2 : ¬ p.1 = q := by rw [hpk]; exact h1
        simp [h1, h2, hq]
    · have hstep : mapSet (p :: rest) k v = p :: mapSet rest k v := by
        simp [mapSet, hpk]
      rw [hstep, mapGet_cons, mapGet_cons, ih]
      by_cases hpq : p.1 = q
      · have : ¬ q = k := by rw [← hpq]; exact fun hh => hpk hh
        simp [hpq, this]
      · simp [hpq]

/-- Map.get after Map.delete, characterized pointwise. -/
theorem mapGet_mapDelete (s : ObjStore) (k q : ℕ) :
    mapGet (mapDelete s k) q = if q = k then none else mapGet s q := by
  induction s with
  | nil => by_cases h : q = k <;> simp [mapDelete, mapGet, h]
  | cons p rest ih =>
    by_cases hpk : p.1 = k
    · have hstep : mapDelete (p :: rest) k = mapDelete rest k := by
        simp [mapDelete, List.filter_cons, hpk]
      rw [hstep, ih, mapGet_cons]
      by_cases hq : q = k
      · simp [hq]
      · have : ¬ p.1 = q := by rw [hpk]; exact fun hh => hq hh.symm
        simp [hq, this]
    · have hstep : mapDelete (p :: rest) k = p :: mapDelete rest k := by
        simp [mapDelete, List.filter_cons, hpk]
      rw [hstep, mapGet_cons, mapGet_cons, ih]
      by_cases hpq : p.1 = q
      · have : ¬ q = k := by rw [← hpq]; exact hpk
        simp [hpq, this]
      · simp [hpq]

/-- Map.has agrees with Map.get. -/
theorem mapHas_isSome (s : ObjStore) (k : ℕ) :
    mapHas s k = (mapGet s k).isSome := by
  induction s with
  | nil => rfl
  | cons p rest ih =>
    rw [mapGet_cons]
    by_cases hpk : p.1 = k
    · simp [mapHas, hpk]
    · have hstep : mapHas (p :: rest) k = mapHas rest k := by
        simp [mapHas, hpk]
      rw [hstep, ih]
      simp [hpk]

/-- Map.set on an absent key appends the binding. -/
theorem mapSet_not_has (s : ObjStore) (k : ℕ) (v : CanvasObject)
    (h : mapHas s k = false) : mapSet s k v = s ++ [(k, v)] := by
  induction s with
  | nil => simp [mapSet]
  | cons p rest ih =>
    simp only [mapHas, List.any_cons, Bool.or_eq_false_iff] at h
    have hpk : ¬ p.1 = k := by
      intro hh
      have h1 := h.1
      rw [hh] at h1
      simp at h1
    have hrest : mapHas rest k = false := h.2
    have hstep : mapSet (p :: rest) k v = p :: mapSet rest k v := by
      simp [mapSet, hpk]
    rw [hstep, ih hrest]
    simp

/-- Map.delete on an absent key is the identity. -/
theorem mapDelete_not_has (s : ObjStore) (k : ℕ)
    (h : mapHas s k = false) : mapDelete s k = s := by
  induction s with
  | nil => rfl
  | cons p rest ih =>
    simp only [mapHas, List.any_cons, Bool.or_eq_false_iff] at h
    have hpk : ¬ p.1 = k := by
      intro hh
      have h1 := h.1
      rw [hh] at h1
      simp at h1
    have hrest : mapHas rest k = false := h.2
    have hstep : mapDelete (p :: rest) k = p :: mapDelete rest k := by
      simp [mapDelete, List.filter_cons, hpk]
    rw [hstep, ih hrest]

/-- writeXY, characterized pointwise. -/
theorem mapGet_writeXY (s : ObjStore) (k : ℕ) (nx ny : ℚ) (q : ℕ) :
    mapGet (writeXY s k nx ny) q =
      if q = k then (mapGet s k).map (fun o => { o with x := nx, y := ny })
      else mapGet s q := by
  unfold writeXY
  cases hk : mapGet s k with
  | none => by_cases hq : q = k <;> simp [hq, hk]
  | some o =>
    rw [mapGet_mapSet]
    by_cases hq : q = k <;> simp [hq, hk]

/-- writeRect, characterized pointwise. -/
theorem mapGet_writeRect (s : ObjStore) (k : ℕ) (nx ny nw nh : ℚ) (q : ℕ) :
    mapGet (writeRect s k nx ny nw nh) q =
      if q = k then (mapGet s k).map
        (fun o => { o with x := nx, y := ny, width := nw, height := nh })
      else mapGet s q := by
  unfold writeRect
  cases hk : mapGet s k with
  | none => by_cases hq : q = k <;> simp [hq, hk]
  | some o =>
    rw [mapGet_mapSet]
    by_cases hq : q = k <;> simp [hq, hk]

/-- Agreement of two stores on everything except x and y: the same keys are
present, and paired entries differ at most in position. -/
def agreeExceptXY (t s : ObjStore) : Prop :=
  ∀ k, ((mapGet t k).isSome = (mapGet s k).isSome) ∧
    ∀ o1 o2, mapGet t k = some o1 → mapGet s k = some o2 →
      o1.id = o2.id ∧ o1.width = o2.width ∧ o1.height = o2.height ∧
      o1.rotation = o2.rotation ∧ o1.zIndex = o2.zIndex ∧
      o1.objectType = o2.objectType ∧ o1.assetId = o2.assetId ∧
      o1.visible = o2.visible

/-- agreeExceptXY is reflexive. -/
theorem agreeExceptXY_refl (s : ObjStore) : agreeExceptXY s s := by
  intro k
  refine ⟨rfl, ?_⟩
  intro o1 o2 h1 h2
  rw [h1] at h2
  obtain rfl := Option.some.inj h2
  exact ⟨rfl, rfl, rfl, rfl, rfl, rfl, rfl, rfl⟩

/-- writeXY changes only x and y, so it preserves agreeExceptXY with any
reference store. -/
theorem agreeExceptXY_writeXY (t s : ObjStore) (k : ℕ) (nx ny : ℚ)
    (h : agreeExceptXY t s) : agreeExceptXY (writeXY t k nx ny) s := by
  intro q
  rw [mapGet_writeXY]
  by_cases hq : q = k
  · subst hq
    cases ht : mapGet t q with
    | none =>
      have hp := (h q).1
      rw [ht] at hp
      exact ⟨by simpa using hp, fun o1 o2 ha _ => by simp at ha⟩
    | some o1 =>
      have hp := (h q).1
      rw [ht] at hp
      refine ⟨by simpa using hp, ?_⟩
      intro a o2 ha h2
      simp only [Option.map_some'] at ha
      obtain rfl := Option.some.inj ha.symm
      have hf := (h q).2 o1 o2 ht h2
      exact ⟨hf.1, hf.2.1, hf.2.2.1, hf.2.2.2.1, hf.2.2.2.2.1,
        hf.2.2.2.2.2.1, hf.2.2.2.2.2.2.1, hf.2.2.2.2.2.2.2⟩
  · rw [if_neg hq]
    exact h q

/-- The batch-move loop preserves agreeExceptXY with any reference store. -/
theorem agreeExceptXY_bmRun (pos : List ℚ) :
    ∀ (ids : List ℕ) (i : ℕ) (t s : ObjStore),
      agreeExceptXY t s → agreeExceptXY (batchMoveRunAux pos i ids t) s := by
  intro ids
  induction ids with
  | nil => intro i t s h; exact h
  | cons k rest ih =>
    intro i t s h
    simp only [batchMoveRunAux]
    exact ih (i + 1) _ s (agreeExceptXY_writeXY t s k _ _ h)

/-- Keys outside the id list are untouched by the batch-move loop. -/
theorem bmRun_untouched (pos : List ℚ) :
    ∀ (ids : List ℕ) (i : ℕ) (t : ObjStore) (q : ℕ),
      q ∉ ids → mapGet (batchMoveRunAux pos i ids t) q = mapGet t q := by
  intro ids
  induction ids with
  | nil => intro i t q _; rfl
  | cons k rest ih =>
    intro i t q hq
    have hqk : ¬ q = k := fun h => hq (h ▸ List.mem_cons_self k rest)
    have hqr : q ∉ rest := fun h => hq (List.mem_cons_of_mem k h)
    simp only [batchMoveRunAux]
    rw [ih (i + 1) _ q hqr, mapGet_writeXY, if_neg hqk]

/-- The captured-old-positions side condition of a batch move: at entry index
i, the store holds the id and its x and y equal the captured flat array at
positions 2i and 2i+1. -/
def oldsOKAux (olds : List ℚ) (s : ObjStore) : ℕ → List ℕ → Bool
  | _, [] => true
  | i, k :: rest =>
    (match mapGet s k with
     | some o => decide (o.x = olds.getD (2 * i) 0) &&
         decide (o.y = olds.getD (2 * i + 1) 0)
     | none => false) && oldsOKAux olds s (i + 1) rest

/-- Replaying captured old positions over any store that agrees with the
reference except on x/y restores the reference entries at all listed keys. -/
theorem bmRun_restores (olds : List ℚ) (s : ObjStore) :
    ∀ (ids : List ℕ) (i : ℕ) (t : ObjStore),
      agreeExceptXY t s → oldsOKAux olds s i ids = true →
      ∀ q ∈ ids, mapGet (batchMoveRunAux olds i ids t) q = mapGet s q := by
  intro ids
  induction ids with
  | nil => intro i t _ _ q hq; cases hq
  | cons k rest ih =>
    intro i t hag hok q hq
    simp only [oldsOKAux, Bool.and_eq_true] at hok
    obtain ⟨hhead, htail⟩ := hok
    simp only [batchMoveRunAux]
    by_cases hqr : q ∈ rest
    · exact ih (i + 1) _ (agreeExceptXY_writeXY t s k _ _ hag) htail q hqr
    · have hqk : q = k := by
        rcases List.mem_cons.mp hq with h | h
        · exact h
        · exact absurd h hqr
      subst hqk
      rw [bmRun_untouched olds rest (i + 1) _ q hqr, mapGet_writeXY, if_pos rfl]
      cases hsk : mapGet s q with
      | none => rw [hsk] at hhead; simp at hhead
      | some o0 =>
        rw [hsk] at hhead
        simp only [Bool.and_eq_true, decide_eq_true_eq] at hhead
        obtain ⟨hox, hoy⟩ := hhead
        have hpres := (hag q).1
        rw [hsk] at hpres
        cases htq : mapGet t q with
        | none => rw [htq] at hpres; simp at hpres
        | some o1 =>
          simp only [Option.map_some']
          obtain ⟨hid, hw, hh, hrot, hz, hot, has, hv⟩ := (hag q).2 o1 o0 htq hsk
          congr 1
          cases o1
          cases o0
          simp only [CanvasObject.mk.injEq] at hid hw hh hrot hz hot has hv ⊢
          simp_all

/-- BatchMoveCommand execute-then-undo restores the object store pointwise
whenever the captured old positions match the store. -/
theorem batchMove_roundtrip (ids : List ℕ) (olds news : List ℚ) (s : ObjStore)
    (hok : oldsOKAux olds s 0 ids = true) :
    ∀ q, mapGet (batchMoveRun ids olds (batchMoveRun ids news s)) q = mapGet s q := by
  intro q
  by_cases hq : q ∈ ids
  · exact bmRun_restores olds s ids 0 _
      (agreeExceptXY_bmRun news ids 0 s s (agreeExceptXY_refl s)) hok q hq
  · rw [batchMoveRun, batchMoveRun, bmRun_untouched olds ids 0 _ q hq,
      bmRun_untouched news ids 0 s q hq]

/-- Agreement of two stores on everything except the rectangle
(x, y, width, height). -/
def agreeExceptRect (t s : ObjStore) : Prop :=
  ∀ k, ((mapGet t k).isSome = (mapGet s k).isSome) ∧
    ∀ o1 o2, mapGet t k = some o1 → mapGet s k = some o2 →
      o1.id = o2.id ∧ o1.rotation = o2.rotation ∧ o1.zIndex = o2.zIndex ∧
      o1.objectType = o2.objectType ∧ o1.assetId = o2.assetId ∧
      o1.visible = o2.visible

/-- agreeExceptRect is reflexive. -/
theorem agreeExceptRect_refl (s : ObjStore) : agreeExceptRect s s := by
  intro k
  refine ⟨rfl, ?_⟩
  intro o1 o2 h1 h2
  rw [h1] at h2
  obtain rfl := Option.some.inj h2
  exact ⟨rfl, rfl, rfl, rfl, rfl, rfl⟩

/-- writeRect changes only the rectangle, so it preserves agreeExceptRect
with any reference store. -/
theorem agreeExceptRect_writeRect (t s : ObjStore) (k : ℕ) (nx ny nw nh : ℚ)
    (h : agreeExceptRect t s) : agreeExceptRect (writeRect t k nx ny nw nh) s := by
  intro q
  rw [mapGet_writeRect]
  by_cases hq : q = k
  · subst hq
    cases ht : mapGet t q with
    | none =>
      have hp := (h q).1
      rw [ht] at hp
      exact ⟨by simpa using hp, fun o1 o2 ha _ => by simp at ha⟩
    | some o1 =>
      have hp := (h q).1
      rw [ht] at hp
      refine ⟨by simpa using hp, ?_⟩
      intro a o2 ha h2
      simp only [Option.map_some'] at ha
      obtain rfl := Option.some.inj ha.symm
      have hf := (h q).2 o1 o2 ht h2
      exact ⟨hf.1, hf.2.1, hf.2.2.1, hf.2.2.2.1, hf.2.2.2.2.1, hf.2.2.2.2.2⟩
  · rw [if_neg hq]
    exact h q

/-- The batch-resize loop preserves agreeExceptRect with any reference
store. -/
theorem agreeExceptRect_brRun (dat : List ℚ) :
    ∀ (ids : List ℕ) (i : ℕ) (t s : ObjStore),
      agreeExceptRect t s → agreeExceptRect (batchResizeRunAux dat i ids t) s := by
  intro ids
  induction ids with
  | nil => intro i t s h; exact h
  | cons k rest ih =>
    intro i t s h
    simp only [batchResizeRunAux]
    exact ih (i + 1) _ s (agreeExceptRect_writeRect t s k _ _ _ _ h)

/-- Keys outside the id list are untouched by the batch-resize loop. -/
theorem brRun_untouched (dat : List ℚ) :
    ∀ (ids : List ℕ) (i : ℕ) (t : ObjStore) (q : ℕ),
      q ∉ ids → mapGet (batchResizeRunAux dat i ids t) q = mapGet t q := by
  intro ids
  induction ids with
  | nil => intro i t q _; rfl
  | cons k rest ih =>
    intro i t q hq
    have hqk : ¬ q = k := fun h => hq (h ▸ List.mem_cons_self k rest)
    have hqr : q ∉ rest := fun h => hq (List.mem_cons_of_mem k h)
    simp only [batchResizeRunAux]
    rw [ih (i + 1) _ q hqr, mapGet_writeRect, if_neg hqk]

/-- The captured-old-rectangle side condition of a batch resize: at entry
index i, the store holds the id and its rectangle equals the captured flat
array at positions 4i..4i+3. -/
def oldsRectOKAux (olds : List ℚ) (s : ObjStore) : ℕ → List ℕ → Bool
  | _, [] => true
  | i, k :: rest =>
    (match mapGet s k with
     | some o => decide (o.x = olds.getD (4 * i) 0) &&
         decide (o.y = olds.getD (4 * i + 1) 0) &&
         decide (o.width = olds.getD (4 * i + 2) 0) &&
         decide (o.height = olds.getD (4 * i + 3) 0)
     | none => false) && oldsRectOKAux olds s (i + 1) rest

/-- Replaying captured old rectangles over any store that agrees with the
reference except on the rectangle restores the reference entries at all
listed keys. -/
theorem brRun_restores (olds : List ℚ) (s : ObjStore) :
    ∀ (ids : List ℕ) (i : ℕ) (t : ObjStore),
      agreeExceptRect t s → oldsRectOKAux olds s i ids = true →
      ∀ q ∈ ids, mapGet (batchResizeRunAux olds i ids t) q = mapGet s q := by
  intro ids
  induction ids with
  | nil => intro i t _ _ q hq; cases hq
  | cons k rest ih =>
    intro i t hag hok q hq
    simp only [oldsRectOKAux, Bool.and_eq_true] at hok
    obtain ⟨hhead, htail⟩ := hok
    simp only [batchResizeRunAux]
    by_cases hqr : q ∈ rest
    · exact ih (i + 1) _ (agreeExceptRect_writeRect t s k _ _ _ _ hag) htail q hqr
    · have hqk : q = k := by
        rcases List.mem_cons.mp hq with h | h
        · exact h
        · exact absurd h hqr
      subst hqk
      rw [brRun_untouched olds rest (i + 1) _ q hqr, mapGet_writeRect, if_pos rfl]
      cases hsk : mapGet s q with
      | none => rw [hsk] at hhead; simp at hhead
      | some o0 =>
        rw [hsk] at hhead
        simp only [Bool.and_eq_true, decide_eq_true_eq] at hhead
        obtain ⟨⟨⟨hox, hoy⟩, how⟩, hoh⟩ := hhead
        have hpres := (hag q).1
        rw [hsk] at hpres
        cases htq : mapGet t q with
        | none => rw [htq] at hpres; simp at hpres
        | some o1 =>
          simp only [Option.map_some']
          obtain ⟨hid, hrot, hz, hot, has, hv⟩ := (hag q).2 o1 o0 htq hsk
          congr 1
          cases o1
          cases o0
          simp only [CanvasObject.mk.injEq] at hid hrot hz hot has hv ⊢
          simp_all

/-- BatchResizeCommand execute-then-undo restores the object store pointwise
whenever the captured old rectangles match the store. -/
theorem batchResize_roundtrip (ids : List ℕ) (olds news : List ℚ) (s : ObjStore)
    (hok : oldsRectOKAux olds s 0 ids = true) :
    ∀ q, mapGet (batchResizeRun ids olds (batchResizeRun ids news s)) q = mapGet s q := by
  intro q
  by_cases hq : q ∈ ids
  · exact brRun_restores olds s ids 0 _
      (agreeExceptRect_brRun news ids 0 s s (agreeExceptRect_refl s)) hok q hq
  · rw [batchResizeRun, batchResizeRun, brRun_untouched olds ids 0 _ q hq,
      brRun_untouched news ids 0 s q hq]

/-- The object-store component of the interleaved store/quadtree fold of the
batch-delete command is the store-only fold. -/
theorem foldl_cmdstate_objects (f : ObjStore → CanvasObject → ObjStore)
    (g : Quadtree → CanvasObject → Quadtree) :
    ∀ (objs : List CanvasObject) (st : CmdState),
      (objs.foldl (fun acc o => (⟨f acc.objects o, g acc.quadtree o⟩ : CmdState)) st).objects
        = objs.foldl f st.objects := by
  intro objs
  induction objs with
  | nil => intro st; rfl
  | cons o rest ih =>
    intro st
    simp only [List.foldl_cons]
    exact ih ⟨f st.objects o, g st.quadtree o⟩

/-- The delete loop of BatchDeleteCommand.execute, characterized pointwise:
every listed id is gone, everything else untouched. -/
theorem delRun_get :
    ∀ (objs : List CanvasObject) (t : ObjStore) (q : ℕ),
      mapGet (objs.foldl (fun t o => mapDelete t o.id) t) q =
        if q ∈ objs.map (fun o => o.id) then none else mapGet t q := by
  intro objs
  induction objs with
  | nil => intro t q; simp
  | cons o rest ih =>
    intro t q
    simp only [List.foldl_cons]
    rw [ih, mapGet_mapDelete]
    by_cases hqr : q ∈ rest.map (fun o => o.id)
    · simp [hqr]
    · by_cases hqo : q = o.id <;> simp [hqr, hqo]

/-- Keys outside the id list are untouched by the re-insert loop of
BatchDeleteCommand.undo. -/
theorem setRun_untouched :
    ∀ (objs : List CanvasObject) (t : ObjStore) (q : ℕ),
      q ∉ objs.map (fun o => o.id) →
      mapGet (objs.foldl (fun t o => mapSet t o.id o) t) q = mapGet t q := by
  intro objs
  induction objs with
  | nil => intro t q _; rfl
  | cons o rest ih =>
    intro t q hq
    have hqo : ¬ q = o.id := fun h => hq (by simp [h])
    have hqr : q ∉ rest.map (fun o => o.id) := fun h => hq (by simp [h])
    simp only [List.foldl_cons]
    rw [ih _ q hqr, mapGet_mapSet, if_neg hqo]

/-- A key named by the id list ends up holding one of the listed captured
objects after the re-insert loop of BatchDeleteCommand.undo. -/
theorem setRun_get_mem :
    ∀ (objs : List CanvasObject) (t : ObjStore) (q : ℕ),
      q ∈ objs.map (fun o => o.id) →
      ∃ o, o ∈ objs ∧ o.id = q ∧
        mapGet (objs.foldl (fun t o => mapSet t o.id o) t) q = some o := by
  intro objs
  induction objs with
  | nil => intro t q hq; simp at hq
  | cons o rest ih =>
    intro t q hq
    simp only [List.foldl_cons]
    by_cases hqr : q ∈ rest.map (fun o => o.id)
    · obtain ⟨o', ho', hid, hget⟩ := ih (mapSet t o.id o) q hqr
      exact ⟨o', List.mem_cons_of_mem _ ho', hid, hget⟩
    · have hqo : q = o.id := by
        simp only [List.map_cons, List.mem_cons] at hq
        rcases hq with h | h
        · exact h
        · exact absurd h hqr
      refine ⟨o, List.mem_cons_self _ _, hqo.symm, ?_⟩
      rw [setRun_untouched rest _ q hqr, mapGet_mapSet, if_pos hqo]

/-- BatchDeleteCommand execute-then-undo restores the object store pointwise
when every captured object record matches the store's current entry. -/
theorem batchDelete_roundtrip (objs : List CanvasObject) (s : ObjStore)
    (hok : ∀ o ∈ objs, mapGet s o.id = some o) :
    ∀ q, mapGet (objs.foldl (fun t o => mapSet t o.id o)
        (objs.foldl (fun t o => mapDelete t o.id) s)) q = mapGet s q := by
  intro q
  by_cases hq : q ∈ objs.map (fun o => o.id)
  · obtain ⟨o, ho, hid, hget⟩ := setRun_get_mem objs _ q hq
    rw [hget, ← hid]
    exact (hok o ho).symm
  · rw [setRun_untouched objs _ q hq, delRun_get, if_neg hq]

/-- writeXY is pointwise-determined by the store's get function. -/
theorem writeXY_congr (s t : ObjStore) (k : ℕ) (nx ny : ℚ)
    (h : ∀ q, mapGet s q = mapGet t q) :
    ∀ q, mapGet (writeXY s k nx ny) q = mapGet (writeXY t k nx ny) q := by
  intro q
  rw [mapGet_writeXY, mapGet_writeXY, h, h]

/-- writeRect is pointwise-determined by the store's get function. -/
theorem writeRect_congr (s t : ObjStore) (k : ℕ) (nx ny nw nh : ℚ)
    (h : ∀ q, mapGet s q = mapGet t q) :
    ∀ q, mapGet (writeRect s k nx ny nw nh) q = mapGet (writeRect t k nx ny nw nh) q := by
  intro q
  rw [mapGet_writeRect, mapGet_writeRect, h, h]

/-- The batch-move loop is pointwise-determined by the store's get
function. -/
theorem bmRun_congr (pos : List ℚ) :
    ∀ (ids : List ℕ) (i : ℕ) (s t : ObjStore),
      (∀ q, mapGet s q = mapGet t q) →
      ∀ q, mapGet (batchMoveRunAux pos i ids s) q
          = mapGet (batchMoveRunAux pos i ids t) q := by
  intro ids
  induction ids with
  | nil => intro i s t h q; exact h q
  | cons k rest ih =>
    intro i s t h q
    simp only [batchMoveRunAux]
    exact ih (i + 1) _ _ (writeXY_congr s t k _ _ h) q

/-- The batch-resize loop is pointwise-determined by the store's get
function. -/
theorem brRun_congr (dat : List ℚ) :
    ∀ (ids : List ℕ) (i : ℕ) (s t : ObjStore),
      (∀ q, mapGet s q = mapGet t q) →
      ∀ q, mapGet (batchResizeRunAux dat i ids s) q
          = mapGet (batchResizeRunAux dat i ids t) q := by
  intro ids
  induction ids with
  | nil => intro i s t h q; exact h q
  | cons k rest ih =>
    intro i s t h q
    simp only [batchResizeRunAux]
    exact ih (i + 1) _ _ (writeRect_congr s t k _ _ _ _ h) q

/-- The delete loop is pointwise-determined by the store's get function. -/
theorem delRun_congr (objs : List CanvasObject) (s t : ObjStore)
    (h : ∀ q, mapGet s q = mapGet t q) :
    ∀ q, mapGet (objs.foldl (fun u o => mapDelete u o.id) s) q
        = mapGet (objs.foldl (fun u o => mapDelete u o.id) t) q := by
  intro q
  rw [delRun_get, delRun_get]
  by_cases hq : q ∈ objs.map (fun o => o.id) <;> simp [hq, h q]

/-- The re-insert loop is pointwise-determined by the store's get
function. -/
theorem setRun_congr :
    ∀ (objs : List CanvasObject) (s t : ObjStore),
      (∀ q, mapGet s q = mapGet t q) →
      ∀ q, mapGet (objs.foldl (fun u o => mapSet u o.id o) s) q
          = mapGet (objs.foldl (fun u o => mapSet u o.id o) t) q := by
  intro objs
  induction objs with
  | nil => intro s t h q; exact h q
  | cons o rest ih =>
    intro s t h q
    simp only [List.foldl_cons]
    refine ih _ _ ?_ q
    intro r
    rw [mapGet_mapSet, mapGet_mapSet, h]

/-- Command.execute's effect on the object store is pointwise-determined by
the store's get function (the quadtree components play no role in the
store). -/
theorem execC_pointwise_congr (fuel : ℕ) (c : Command) (st1 st2 : CmdState)
    (h : ∀ q, mapGet st1.objects q = mapGet st2.objects q) :
    ∀ q, mapGet (c.execC fuel st1).objects q = mapGet (c.execC fuel st2).objects q := by
  cases c with
  | move objectId ox oy nx ny =>
    exact writeXY_congr st1.objects st2.objects objectId nx ny h
  | batchMove ids olds news =>
    exact bmRun_congr news ids 0 st1.objects st2.objects h
  | batchResize ids olds news =>
    exact brRun_congr news ids 0 st1.objects st2.objects h
  | resize objectId ox oy ow oh nx ny nw nh =>
    exact writeRect_congr st1.objects st2.objects objectId nx ny nw nh h
  | addObject o =>
    intro q
    show mapGet (mapSet st1.objects o.id o) q = mapGet (mapSet st2.objects o.id o) q
    rw [mapGet_mapSet, mapGet_mapSet, h]
  | deleteObject o =>
    intro q
    show mapGet (mapDelete st1.objects o.id) q = mapGet (mapDelete st2.objects o.id) q
    rw [mapGet_mapDelete, mapGet_mapDelete, h]
  | batchDelete objs =>
    intro q
    have e1 : (List.foldl (fun acc o =>
          (⟨mapDelete acc.objects o.id, acc.quadtree.remove o.id⟩ : CmdState)) st1 objs).objects
        = List.foldl (fun t o => mapDelete t o.id) st1.objects objs :=
      foldl_cmdstate_objects (fun t o => mapDelete t o.id) (fun qt o => qt.remove o.id) objs st1
    have e2 : (List.foldl (fun acc o =>
          (⟨mapDelete acc.objects o.id, acc.quadtree.remove o.id⟩ : CmdState)) st2 objs).objects
        = List.foldl (fun t o => mapDelete t o.id) st2.objects objs :=
      foldl_cmdstate_objects (fun t o => mapDelete t o.id) (fun qt o => qt.remove o.id) objs st2
    show mapGet (List.foldl (fun acc o =>
        (⟨mapDelete acc.objects o.id, acc.quadtree.remove o.id⟩ : CmdState)) st1 objs).objects q
      = mapGet (List.foldl (fun acc o =>
        (⟨mapDelete acc.objects o.id, acc.quadtree.remove o.id⟩ : CmdState)) st2 objs).objects q
    rw [e1, e2]
    exact delRun_congr objs st1.objects st2.objects h q

/-- The captured-state side condition that every command constructed by the
facade satisfies at execute time: the captured ids exist and the captured
old values (full object records for delete commands; for add, an absent id)
match the store's current contents. -/
def capturedOKb (cmd : Command) (s : ObjStore) : Bool :=
  match cmd with
  | .move objectId ox oy _ _ =>
    (match mapGet s objectId with
     | some o => decide (o.x = ox) && decide (o.y = oy)
     | none => false)
  | .batchMove ids olds _ => oldsOKAux olds s 0 ids
  | .batchResize ids olds _ => oldsRectOKAux olds s 0 ids
  | .resize objectId ox oy ow oh _ _ _ _ =>
    (match mapGet s objectId with
     | some o => decide (o.x = ox) && decide (o.y = oy) &&
         decide (o.width = ow) && decide (o.height = oh)
     | none => false)
  | .addObject o => !(mapHas s o.id)
  | .deleteObject o => decide (mapGet s o.id = some o)
  | .batchDelete objs => objs.all (fun o => decide (mapGet s o.id = some o))

/-- Execute-then-undo of a well-captured command restores the object store
pointwise (every key maps to an equal record). -/
theorem roundtrip_pointwise (fuel : ℕ) (c : Command) (st : CmdState)
    (hok : capturedOKb c st.objects = true) :
    ∀ q, mapGet ((c.undoC fuel (c.execC fuel st)).objects) q = mapGet st.objects q := by
  cases c with
  | move objectId ox oy nx ny =>
    intro q
    show mapGet (writeXY (writeXY st.objects objectId nx ny) objectId ox oy) q
        = mapGet st.objects q
    cases hsk : mapGet st.objects objectId with
    | none => simp [capturedOKb, hsk] at hok
    | some o =>
      simp only [capturedOKb, hsk, Bool.and_eq_true, decide_eq_true_eq] at hok
      obtain ⟨hox, hoy⟩ := hok
      by_cases hq : q = objectId
      · subst hq
        rw [mapGet_writeXY, if_pos rfl, mapGet_writeXY, if_pos rfl, hsk]
        simp only [Option.map_some']
        congr 1
        cases o
        simp_all
      · rw [mapGet_writeXY, if_neg hq, mapGet_writeXY, if_neg hq]
  | resize objectId ox oy ow oh nx ny nw nh =>
    intro q
    show mapGet (writeRect (writeRect st.objects objectId nx ny nw nh)
        objectId ox oy ow oh) q = mapGet st.objects q
    cases hsk : mapGet st.objects objectId with
    | none => simp [capturedOKb, hsk] at hok
    | some o =>
      simp only [capturedOKb, hsk, Bool.and_eq_true, decide_eq_true_eq] at hok
      obtain ⟨⟨⟨hox, hoy⟩, how⟩, hoh⟩ := hok
      by_cases hq : q = objectId
      · subst hq
        rw [mapGet_writeRect, if_pos rfl, mapGet_writeRect, if_pos rfl, hsk]
        simp only [Option.map_some']
        congr 1
        cases o
        simp_all
      · rw [mapGet_writeRect, if_neg hq, mapGet_writeRect, if_neg hq]
  | batchMove ids olds news =>
    intro q
    show mapGet (batchMoveRun ids olds (batchMoveRun ids news st.objects)) q
        = mapGet st.objects q
    exact batchMove_roundtrip ids olds news st.objects hok q
  | batchResize ids olds news =>
    intro q
    show mapGet (batchResizeRun ids olds (batchResizeRun ids news st.objects)) q
        = mapGet st.objects q
    exact batchResize_roundtrip ids olds news st.objects hok q
  | addObject o =>
    intro q
    show mapGet (mapDelete (mapSet st.objects o.id o) o.id) q = mapGet st.objects q
    have habs : mapGet st.objects o.id = none := by
      simp only [capturedOKb, Bool.not_eq_true'] at hok
      rw [mapHas_isSome] at hok
      exact Option.not_isSome_iff_eq_none.mp (by simp [hok])
    rw [mapGet_mapDelete]
    by_cases hq : q = o.id
    · rw [if_pos hq, hq, habs]
    · rw [if_neg hq, mapGet_mapSet, if_neg hq]
  | deleteObject o =>
    intro q
    show mapGet (mapSet (mapDelete st.objects o.id) o.id o) q = mapGet st.objects q
    have hsk : mapGet st.objects o.id = some o := by
      simpa [capturedOKb] using hok
    rw [mapGet_mapSet]
    by_cases hq : q = o.id
    · rw [if_pos hq, hq, hsk]
    · rw [if_neg hq, mapGet_mapDelete, if_neg hq]
  | batchDelete objs =>
    intro q
    have hok' : ∀ o ∈ objs, mapGet st.objects o.id = some o := by
      intro o ho
      have := List.all_eq_true.mp hok o ho
      simpa using this
    have he : (Command.execC fuel (.batchDelete objs) st).objects
        = List.foldl (fun t o => mapDelete t o.id) st.objects objs :=
      foldl_cmdstate_objects (fun t o => mapDelete t o.id) (fun qt o => qt.remove o.id) objs st
    have hu : ∀ st' : CmdState, (Command.undoC fuel (.batchDelete objs) st').objects
        = List.foldl (fun t o => mapSet t o.id o) st'.objects objs := fun st' =>
      foldl_cmdstate_objects (fun t o => mapSet t o.id o)
        (fun qt o => Quadtree.insert fuel o qt) objs st'
    rw [hu, he]
    exact batchDelete_roundtrip objs st.objects hok' q

/-- C2 amended: for every command and every store state in which the
command's captured data matches the store (captured ids exist with the
captured old values equal to the store's current values; for Add, the id is
absent), execute-then-undo leaves the object store observationally identical
(same ids, same x, y, width, height per id — in fact every entry is restored
exactly), and execute-undo-redo leaves it identical to the state just after
execute (redo re-runs Command.execute). -/
theorem C2_execute_undo_roundtrip (fuel : ℕ) (c : Command) (st : CmdState)
    (hok : capturedOKb c st.objects = true) :
    obsEq ((c.undoC fuel (c.execC fuel st)).objects) st.objects ∧
    obsEq ((c.execC fuel (c.undoC fuel (c.execC fuel st))).objects)
      ((c.execC fuel st).objects) := by
  constructor
  · intro k
    unfold rectOf
    rw [roundtrip_pointwise fuel c st hok k]
  · intro k
    unfold rectOf
    rw [execC_pointwise_congr fuel c _ st (roundtrip_pointwise fuel c st hok) k]

/-- C2 amended witness: a concrete well-captured move command on a one-object
store. -/
theorem C2_execute_undo_roundtrip_witness :
    obsEq ((Command.undoC 5 (Command.move 1 0 0 7 9)
        (Command.execC 5 (Command.move 1 0 0 7 9)
          ⟨[(1, ⟨1, 0, 0, 10, 10, 0, 0, 0, 0, false⟩)], Quadtree.new 0 0 100 100 4⟩)).objects)
      ([(1, ⟨1, 0, 0, 10, 10, 0, 0, 0, 0, false⟩)] : ObjStore) ∧
    obsEq ((Command.execC 5 (Command.move 1 0 0 7 9)
        (Command.undoC 5 (Command.move 1 0 0 7 9)
          (Command.execC 5 (Command.move 1 0 0 7 9)
            ⟨[(1, ⟨1, 0, 0, 10, 10, 0, 0, 0, 0, false⟩)], Quadtree.new 0 0 100 100 4⟩))).objects)
      ((Command.execC 5 (Command.move 1 0 0 7 9)
        ⟨[(1, ⟨1, 0, 0, 10, 10, 0, 0, 0, 0, false⟩)], Quadtree.new 0 0 100 100 4⟩).objects) :=
  C2_execute_undo_roundtrip 5 (Command.move 1 0 0 7 9)
    ⟨[(1, ⟨1, 0, 0, 10, 10, 0, 0, 0, 0, false⟩)], Quadtree.new 0 0 100 100 4⟩
    (by with_unfolding_all decide)

/-- C2 counterexample: the claim as stated (requiring only that the captured
ids exist) is false.  A MoveCommand whose captured oldX does not match the
store (id 1 exists, its x is 0, but the command captured oldX = 5) leaves
x = 5 after execute-then-undo, so the store is not observationally identical
to its pre-execute state. -/
theorem C2_counterexample_stale_capture :
    mapHas ([(1, ⟨1, 0, 0, 10, 10, 0, 0, 0, 0, false⟩)] : ObjStore) 1 = true ∧
    rectOf ((Command.undoC 5 (Command.move 1 5 0 7 0)
        (Command.execC 5 (Command.move 1 5 0 7 0)
          ⟨[(1, ⟨1, 0, 0, 10, 10, 0, 0, 0, 0, false⟩)], Quadtree.new 0 0 100 100 4⟩)).objects) 1
      = some (5, 0, 10, 10) ∧
    rectOf ([(1, ⟨1, 0, 0, 10, 10, 0, 0, 0, 0, false⟩)] : ObjStore) 1
      = some (0, 0, 10, 10) ∧
    ¬ obsEq ((Command.undoC 5 (Command.move 1 5 0 7 0)
        (Command.execC 5 (Command.move 1 5 0 7 0)
          ⟨[(1, ⟨1, 0, 0, 10, 10, 0, 0, 0, 0, false⟩)], Quadtree.new 0 0 100 100 4⟩)).objects)
      ([(1, ⟨1, 0, 0, 10, 10, 0, 0, 0, 0, false⟩)] : ObjStore) := by
  refine ⟨by with_unfolding_all decide, by with_unfolding_all decide,
    by with_unfolding_all decide, ?_⟩
  intro h
  have h1 := h 1
  rw [show rectOf ((Command.undoC 5 (Command.move 1 5 0 7 0)
      (Command.execC 5 (Command.move 1 5 0 7 0)
        ⟨[(1, ⟨1, 0, 0, 10, 10, 0, 0, 0, 0, false⟩)], Quadtree.new 0 0 100 100 4⟩)).objects) 1
    = some (5, 0, 10, 10) from by with_unfolding_all decide] at h1
  rw [show rectOf ([(1, ⟨1, 0, 0, 10, 10, 0, 0, 0, 0, false⟩)] : ObjStore) 1
    = some (0, 0, 10, 10) from by with_unfolding_all decide] at h1
  exact absurd h1 (by with_unfolding_all decide)

/-- endBatchMove on a session holding a non-empty batch: execute the batch
command through the history, re-index the touched objects, bump the version,
clear the slot. -/
theorem endBatchMove_nonempty (fuel : ℕ) (c : InfiniteCanvas) (bm : BatchMoveState)
    (hbm : c.batchMoveCmd = some bm) (hne : bm.isEmpty = false) :
    endBatchMove fuel (some c) = some (InfiniteCanvas.incrementVersion
      (let r := c.commandHistory.execute fuel
          (Command.batchMove bm.objectIds bm.oldPositions bm.newPositions)
          (⟨c.objects, c.viewport.quadtree⟩ : CmdState)
       let qt2 := bm.objectIds.foldl (fun q objId =>
          match mapGet r.2.objects objId with
          | some o => Quadtree.insert fuel o (q.remove objId)
          | none => q) r.2.quadtree
       { c with
         commandHistory := r.1,
         objects := r.2.objects,
         viewport := { c.viewport with quadtree := qt2 },
         batchMoveCmd := none })) := by
  simp only [endBatchMove, hbm, hne]
  simp

/-- CommandHistory.execute from a cursor-at-end, under-cap state: plain
append and cursor advance, no truncation and no eviction. -/
theorem execute_no_evict (fuel : ℕ) (cmd : Command) (h : CommandHistory)
    (st : CmdState)
    (hcur : h.currentIndex + 1 = (h.history.length : ℤ))
    (hlen : h.history.length < h.maxHistory) :
    h.execute fuel cmd st =
      (⟨h.history ++ [cmd], h.currentIndex + 1, h.maxHistory⟩, cmd.execC fuel st) := by
  simp only [CommandHistory.execute]
  rw [show (h.currentIndex + 1).toNat = h.history.length from by omega, List.take_length]
  rw [if_neg (by simp only [List.length_append, List.length_cons, List.length_nil]; omega)]

/-- The exported undo succeeds exactly on a non-negative cursor. -/
theorem undo_fst (fuel : ℕ) (cc : InfiniteCanvas)
    (hge : ¬ cc.commandHistory.currentIndex < 0) :
    (undo fuel (some cc)).1 = true := by
  simp only [undo, CommandHistory.undo, if_neg hge]
  simp

/-- The session produced by a successful exported undo: history cursor
decremented, store rewritten by the cursor command's undo, quadtree rebuilt
from the store values, id list resynchronized, version bumped. -/
theorem undo_snd (fuel : ℕ) (cc : InfiniteCanvas)
    (hge : ¬ cc.commandHistory.currentIndex < 0) :
    (undo fuel (some cc)).2 = some (InfiniteCanvas.incrementVersion
      (let u := (cc.commandHistory.history.getD
          cc.commandHistory.currentIndex.toNat dummyCommand).undoC fuel
          (⟨cc.objects, cc.viewport.quadtree⟩ : CmdState)
       let qt2 := Quadtree.rebuild fuel u.quadtree (mapValues u.objects)
       { cc with
         commandHistory := { cc.commandHistory with
           currentIndex := cc.commandHistory.currentIndex - 1 },
         objects := u.objects,
         viewport := { cc.viewport with quadtree := qt2 },
         objectList := mapKeys u.objects })) := by
  simp only [undo, CommandHistory.undo, if_neg hge]
  simp

/-- Reading the entry appended at the end of the history. -/
theorem getD_append_self (l : List Command) (cmd d : Command) :
    (l ++ [cmd]).getD l.length d = cmd := by
  induction l with
  | nil => rfl
  | cons x xs ih =>
    simp only [List.cons_append, List.length_cons, List.getD_cons_succ]
    exact ih

/-- Reading an object's x through the facade on a session whose store holds
it. -/
theorem getObjectX_some (cc : InfiniteCanvas) (k : ℕ) (o : CanvasObject)
    (h : mapGet cc.objects k = some o) : getObjectX k (some cc) = o.x := by
  simp [getObjectX, h]

/-- Reading an object's y through the facade on a session whose store holds
it. -/
theorem getObjectY_some (cc : InfiniteCanvas) (k : ℕ) (o : CanvasObject)
    (h : mapGet cc.objects k = some o) : getObjectY k (some cc) = o.y := by
  simp [getObjectY, h]

/-- C4: in an initialized session holding two existing objects a and b (with
the history cursor at the end and the history below its 100-entry cap, as
holds in every reachable session between undos), the sequence
beginBatchMove; addToBatchMove(a, ...); addToBatchMove(b, ...); endBatchMove
appends exactly one entry to the command history, and a single subsequent
undo call returns true and restores both a and b to their pre-batch
positions. -/
theorem C4_batch_move_single_undo (fuel : ℕ) (c : InfiniteCanvas) (a b : ℕ)
    (ax ay bx by2 : ℚ) (oa ob : CanvasObject)
    (hA : mapGet c.objects a = some oa)
    (hB : mapGet c.objects b = some ob)
    (hmax : c.commandHistory.maxHistory = 100)
    (hcur : c.commandHistory.currentIndex + 1 = (c.commandHistory.history.length : ℤ))
    (hlen : c.commandHistory.history.length < 100) :
    ∃ c1 : InfiniteCanvas,
      endBatchMove fuel (addToBatchMove b bx by2 (addToBatchMove a ax ay
          (beginBatchMove (some c)))) = some c1 ∧
      c1.commandHistory.history.length = c.commandHistory.history.length + 1 ∧
      (undo fuel (some c1)).1 = true ∧
      getObjectX a (undo fuel (some c1)).2 = oa.x ∧
      getObjectY a (undo fuel (some c1)).2 = oa.y ∧
      getObjectX b (undo fuel (some c1)).2 = ob.x ∧
      getObjectY b (undo fuel (some c1)).2 = ob.y := by
  have h1 : addToBatchMove a ax ay (beginBatchMove (some c))
      = some { c with batchMoveCmd := some ⟨[a], [oa.x, oa.y],
          [(c.grid.snap ax ay).1, (c.grid.snap ax ay).2]⟩ } := by
    simp only [beginBatchMove, addToBatchMove, hA]
    simp
  have h2 : addToBatchMove b bx by2 (some { c with batchMoveCmd := some ⟨[a], [oa.x, oa.y],
        [(c.grid.snap ax ay).1, (c.grid.snap ax ay).2]⟩ })
      = some { c with batchMoveCmd := some ⟨[a, b], [oa.x, oa.y, ob.x, ob.y],
          [(c.grid.snap ax ay).1, (c.grid.snap ax ay).2,
           (c.grid.snap bx by2).1, (c.grid.snap bx by2).2]⟩ } := by
    simp only [addToBatchMove, hB]
    simp
  set olds : List ℚ := [oa.x, oa.y, ob.x, ob.y] with holds
  set news : List ℚ := [(c.grid.snap ax ay).1, (c.grid.snap ax ay).2,
    (c.grid.snap bx by2).1, (c.grid.snap bx by2).2] with hnews
  set cmdB : Command := Command.batchMove [a, b] olds news with hcmdB
  set E : CommandHistory × CmdState := CommandHistory.execute fuel c.commandHistory cmdB
    (⟨c.objects, c.viewport.quadtree⟩ : CmdState) with hEdef
  have hE : E = (⟨c.commandHistory.history ++ [cmdB],
      c.commandHistory.currentIndex + 1, c.commandHistory.maxHistory⟩,
      cmdB.execC fuel (⟨c.objects, c.viewport.quadtree⟩ : CmdState)) := by
    rw [hEdef]
    exact execute_no_evict fuel cmdB c.commandHistory _ hcur (by omega)
  set QT : Quadtree := List.foldl (fun q objId =>
      match mapGet E.2.objects objId with
      | some o => Quadtree.insert fuel o (q.remove objId)
      | none => q) E.2.quadtree [a, b] with hQT
  set CFIN : InfiniteCanvas := InfiniteCanvas.incrementVersion
    { c with
      commandHistory := E.1,
      objects := E.2.objects,
      viewport := { c.viewport with quadtree := QT },
      batchMoveCmd := none } with hCFIN
  have hend := endBatchMove_nonempty fuel
    { c with batchMoveCmd := some ⟨[a, b], olds, news⟩ } ⟨[a, b], olds, news⟩ rfl rfl
  have hseq : endBatchMove fuel (addToBatchMove b bx by2 (addToBatchMove a ax ay
      (beginBatchMove (some c)))) = some CFIN := by
    rw [h1, h2]
    exact hend
  have hCH : CFIN.commandHistory = E.1 := rfl
  have hOB : CFIN.objects = E.2.objects := rfl
  have hge : ¬ CFIN.commandHistory.currentIndex < 0 := by
    rw [hCH, hE]
    show ¬ c.commandHistory.currentIndex + 1 < 0
    omega
  have hcmdAt : CFIN.commandHistory.history.getD
      CFIN.commandHistory.currentIndex.toNat dummyCommand = cmdB := by
    rw [hCH, hE]
    show (c.commandHistory.history ++ [cmdB]).getD
      (c.commandHistory.currentIndex + 1).toNat dummyCommand = cmdB
    rw [show (c.commandHistory.currentIndex + 1).toNat
      = c.commandHistory.history.length from by omega]
    exact getD_append_self _ _ _
  have hfobjs : CFIN.objects = batchMoveRun [a, b] news c.objects := by
    rw [hOB, hE]
    rfl
  have hok : oldsOKAux olds c.objects 0 [a, b] = true := by
    rw [holds]
    simp [oldsOKAux, hA, hB]
  have hstore : ∀ q, mapGet ((CFIN.commandHistory.history.getD
      CFIN.commandHistory.currentIndex.toNat dummyCommand).undoC fuel
      (⟨CFIN.objects, CFIN.viewport.quadtree⟩ : CmdState)).objects q
      = mapGet c.objects q := by
    intro q
    rw [hcmdAt]
    show mapGet (batchMoveRun [a, b] olds
      (⟨CFIN.objects, CFIN.viewport.quadtree⟩ : CmdState).objects) q = mapGet c.objects q
    rw [show (⟨CFIN.objects, CFIN.viewport.quadtree⟩ : CmdState).objects
      = CFIN.objects from rfl, hfobjs]
    exact batchMove_roundtrip [a, b] olds news c.objects hok q
  refine ⟨CFIN, hseq, ?_, undo_fst fuel CFIN hge, ?_, ?_, ?_, ?_⟩
  · rw [hCH, hE]
    show (c.commandHistory.history ++ [cmdB]).length = c.commandHistory.history.length + 1
    simp
  · rw [undo_snd fuel CFIN hge]
    refine getObjectX_some _ a oa ?_
    show mapGet ((CFIN.commandHistory.history.getD
      CFIN.commandHistory.currentIndex.toNat dummyCommand).undoC fuel
      (⟨CFIN.objects, CFIN.viewport.quadtree⟩ : CmdState)).objects a = some oa
    rw [hstore a]
    exact hA
  · rw [undo_snd fuel CFIN hge]
    refine getObjectY_some _ a oa ?_
    show mapGet ((CFIN.commandHistory.history.getD
      CFIN.commandHistory.currentIndex.toNat dummyCommand).undoC fuel
      (⟨CFIN.objects, CFIN.viewport.quadtree⟩ : CmdState)).objects a = some oa
    rw [hstore a]
    exact hA
  · rw [undo_snd fuel CFIN hge]
    refine getObjectX_some _ b ob ?_
    show mapGet ((CFIN.commandHistory.history.getD
      CFIN.commandHistory.currentIndex.toNat dummyCommand).undoC fuel
      (⟨CFIN.objects, CFIN.viewport.quadtree⟩ : CmdState)).objects b = some ob
    rw [hstore b]
    exact hB
  · rw [undo_snd fuel CFIN hge]
    refine getObjectY_some _ b ob ?_
    show mapGet ((CFIN.commandHistory.history.getD
      CFIN.commandHistory.currentIndex.toNat dummyCommand).undoC fuel
      (⟨CFIN.objects, CFIN.viewport.quadtree⟩ : CmdState)).objects b = some ob
    rw [hstore b]
    exact hB

/-- C4 witness: a concrete two-object session; the batch of two moves makes
one history entry and a single undo restores both objects to (0, 0) and
(200, 200). -/
theorem C4_batch_move_single_undo_witness :
    ∃ c1 : InfiniteCanvas,
      endBatchMove 8 (addToBatchMove 2 90 110 (addToBatchMove 1 50 70
          (beginBatchMove (some (⟨Viewport.new 800 600, GridSystem.new 20,
            CommandHistory.new,
            [(1, ⟨1, 0, 0, 100, 100, 0, 0, 1, 1, false⟩),
             (2, ⟨2, 200, 200, 100, 100, 0, 0, 1, 1, false⟩)],
            [1, 2], 3, 0, none, none⟩ : InfiniteCanvas))))) = some c1 ∧
      c1.commandHistory.history.length = 0 + 1 ∧
      (undo 8 (some c1)).1 = true ∧
      getObjectX 1 (undo 8 (some c1)).2 = 0 ∧
      getObjectY 1 (undo 8 (some c1)).2 = 0 ∧
      getObjectX 2 (undo 8 (some c1)).2 = 200 ∧
      getObjectY 2 (undo 8 (some c1)).2 = 200 :=
  C4_batch_move_single_undo 8
    (⟨Viewport.new 800 600, GridSystem.new 20, CommandHistory.new,
      [(1, ⟨1, 0, 0, 100, 100, 0, 0, 1, 1, false⟩),
       (2, ⟨2, 200, 200, 100, 100, 0, 0, 1, 1, false⟩)],
      [1, 2], 3, 0, none, none⟩ : InfiniteCanvas)
    1 2 50 70 90 110
    ⟨1, 0, 0, 100, 100, 0, 0, 1, 1, false⟩
    ⟨2, 200, 200, 100, 100, 0, 0, 1, 1, false⟩
    (by with_unfolding_all decide) (by with_unfolding_all decide) rfl
    (by with_unfolding_all decide) (by with_unfolding_all decide)

/-- Inserting an object whose bounds miss the node's boundary returns false
and leaves the node untouched, for every fuel. -/
theorem insert_boundary_miss (fuel : ℕ) (obj : CanvasObject) (n : QuadtreeNode)
    (h : AABB.intersects n.boundary obj.getBounds = false) :
    QuadtreeNode.insert fuel obj n = (false, n) := by
  cases fuel with
  | zero => rfl
  | succ fuel =>
    cases n with
    | leaf b cap objs =>
      have hb : AABB.intersects b obj.getBounds = false := h
      simp [QuadtreeNode.insert, insertStep, hb]
    | branch b cap objs ne nw se sw =>
      have hb : AABB.intersects b obj.getBounds = false := h
      simp [QuadtreeNode.insert, insertStep, hb]

/-- An object stored in a subtree contributes its id to hasId. -/
theorem memObj_hasId (o : CanvasObject) :
    ∀ n : QuadtreeNode, n.memObj o = true → n.hasId o.id = true := by
  intro n
  induction n with
  | leaf b cap objs =>
    intro h
    simp only [QuadtreeNode.memObj, decide_eq_true_eq] at h
    simp only [QuadtreeNode.hasId, List.any_eq_true]
    exact ⟨o, h, by simp⟩
  | branch b cap objs ne nw se sw ihne ihnw ihse ihsw =>
    intro h
    simp only [QuadtreeNode.memObj, Bool.or_eq_true, decide_eq_true_eq] at h
    simp only [QuadtreeNode.hasId, Bool.or_eq_true, List.any_eq_true]
    rcases h with (((h | h) | h) | h) | h
    · exact Or.inl (Or.inl (Or.inl (Or.inl ⟨o, h, by simp⟩)))
    · exact Or.inl (Or.inl (Or.inl (Or.inr (ihne h))))
    · exact Or.inl (Or.inl (Or.inr (ihnw h)))
    · exact Or.inl (Or.inr (ihse h))
    · exact Or.inr (ihsw h)

/-- An id absent from the whole tree never appears in a queryViewport
result. -/
theorem queryViewport_id_absent (t : Quadtree) (range : AABB) (i : ℕ)
    (h : t.root.hasId i = false) :
    i ∉ (t.queryViewport range).map (fun o => o.id) := by
  intro hmem
  obtain ⟨o, ho, hid⟩ := List.mem_map.mp hmem
  obtain ⟨hgood, hprov⟩ := query_good range t.root [] [] ⟨List.nodup_nil, by simp⟩
  rcases hprov o ho with hc | hc
  · simp at hc
  · have := memObj_hasId o t.root hc.1
    rw [hid] at this
    rw [this] at h
    exact Bool.noConfusion h

/-- Membership through one insertion-sort step. -/
theorem mem_insertByZIndex (o key : CanvasObject) :
    ∀ l : List CanvasObject, o ∈ insertByZIndex key l ↔ o = key ∨ o ∈ l := by
  intro l
  induction l with
  | nil => simp [insertByZIndex]
  | cons x xs ih =>
    show o ∈ (if decide (key.zIndex < x.zIndex) then key :: x :: xs
        else x :: insertByZIndex key xs) ↔ o = key ∨ o ∈ x :: xs
    by_cases h : decide (key.zIndex < x.zIndex) = true
    · rw [if_pos h]
      simp only [List.mem_cons]
    · rw [if_neg h]
      simp only [List.mem_cons, ih]
      tauto

/-- Membership through the insertion-sort fold. -/
theorem mem_sortFold (o : CanvasObject) :
    ∀ (l acc : List CanvasObject),
      o ∈ List.foldl (fun acc x => insertByZIndex x acc) acc l ↔ o ∈ acc ∨ o ∈ l := by
  intro l
  induction l with
  | nil => intro acc; simp
  | cons x xs ih =>
    intro acc
    simp only [List.foldl_cons]
    rw [ih]
    rw [mem_insertByZIndex]
    simp
    tauto

/-- The stable zIndex sort keeps exactly the same members. -/
theorem mem_sortByZIndex (o : CanvasObject) (l : List CanvasObject) :
    o ∈ sortByZIndex l ↔ o ∈ l := by
  unfold sortByZIndex
  rw [mem_sortFold]
  simp

/-- The state component of CommandHistory.execute is always the executed
command's effect, independent of truncation and eviction. -/
theorem execute_snd (fuel : ℕ) (cmd : Command) (h : CommandHistory) (st : CmdState) :
    (h.execute fuel cmd st).2 = cmd.execC fuel st := by
  unfold CommandHistory.execute
  simp only [apply_ite Prod.snd, ite_self]

/-- The fresh object built by addObject keeps the allocated id through grid
snapping. -/
theorem mkAddedObject_id (c : InfiniteCanvas) (x y w h : ℚ) (aid ot : ℕ) :
    (mkAddedObject c x y w h aid ot).id = c.nextObjectId := by
  unfold mkAddedObject GridSystem.snapObject
  split <;> rfl

/-- C10: on an initialized session, addObject applied to an object whose
snapped bounds miss the fixed quadtree root boundary still hands out the
allocated nonzero id and objectExists reports it afterwards, yet the
quadtree is left untouched and the id never appears in any queryViewport
result nor in the visible list recomputed by updateVisibleObjects, for
every query range, camera state and canvas size. -/
theorem C10_out_of_bounds_object_invisible (fuel : ℕ) (c : InfiniteCanvas)
    (x y w h : ℚ) (assetId objectType : ℕ)
    (hout : AABB.intersects c.viewport.quadtree.root.boundary
      (mkAddedObject c x y w h assetId objectType).getBounds = false)
    (hid : c.nextObjectId ≠ 0)
    (hfresh : c.viewport.quadtree.root.hasId c.nextObjectId = false) :
    (addObject fuel x y w h assetId objectType (some c)).1 = c.nextObjectId ∧
    (addObject fuel x y w h assetId objectType (some c)).1 ≠ 0 ∧
    objectExists c.nextObjectId
      (addObject fuel x y w h assetId objectType (some c)).2 = true ∧
    ∀ c1, (addObject fuel x y w h assetId objectType (some c)).2 = some c1 →
      c1.viewport.quadtree = c.viewport.quadtree ∧
      (∀ range : AABB,
        c.nextObjectId ∉
          (c1.viewport.quadtree.queryViewport range).map (fun o => o.id)) ∧
      (∀ cam : Camera, ∀ cw chh : ℚ,
        c.nextObjectId ∉
          (({ c1.viewport with camera := cam, canvasWidth := cw, canvasHeight := chh } : Viewport).updateVisibleObjects).2.visibleObjects.map
            (fun o => o.id)) := by
  set obj := mkAddedObject c x y w h assetId objectType with hobj
  set R := CommandHistory.execute fuel c.commandHistory (Command.addObject obj)
    (⟨c.objects, c.viewport.quadtree⟩ : CmdState) with hR
  have hidobj : obj.id = c.nextObjectId := by
    rw [hobj]
    exact mkAddedObject_id c x y w h assetId objectType
  have hfst : (addObject fuel x y w h assetId objectType (some c)).1 = obj.id := rfl
  have hsnd : (addObject fuel x y w h assetId objectType (some c)).2
      = some (InfiniteCanvas.incrementVersion { c with
          nextObjectId := (c.nextObjectId + 1) % 4294967296,
          commandHistory := R.1,
          objects := R.2.objects,
          viewport := { c.viewport with quadtree := R.2.quadtree },
          objectList := c.objectList ++ [obj.id] }) := rfl
  have hst : R.2 = (⟨mapSet c.objects obj.id obj,
      Quadtree.insert fuel obj c.viewport.quadtree⟩ : CmdState) := by
    rw [hR, execute_snd]
    rfl
  have hqt : Quadtree.insert fuel obj c.viewport.quadtree = c.viewport.quadtree := by
    unfold Quadtree.insert
    rw [insert_boundary_miss fuel obj c.viewport.quadtree.root hout]
  have hqr : R.2.quadtree = c.viewport.quadtree := by
    rw [hst]
    exact hqt
  refine ⟨hfst.trans hidobj, ?_, ?_, ?_⟩
  · rw [hfst, hidobj]
    exact hid
  · rw [hsnd]
    show mapHas R.2.objects c.nextObjectId = true
    rw [hst]
    show mapHas (mapSet c.objects obj.id obj) c.nextObjectId = true
    rw [mapHas_isSome, mapGet_mapSet, hidobj]
    simp
  · intro c1 hc1
    rw [hsnd] at hc1
    injection hc1 with hc1
    subst hc1
    have hq : (InfiniteCanvas.incrementVersion { c with
        nextObjectId := (c.nextObjectId + 1) % 4294967296,
        commandHistory := R.1,
        objects := R.2.objects,
        viewport := { c.viewport with quadtree := R.2.quadtree },
        objectList := c.objectList ++ [obj.id] }).viewport.quadtree
        = c.viewport.quadtree := hqr
    refine ⟨hq, ?_, ?_⟩
    · intro range
      rw [hq]
      exact queryViewport_id_absent c.viewport.quadtree range c.nextObjectId hfresh
    · intro cam cw chh hmem
      have hmem2 : c.nextObjectId ∈
          (sortByZIndex (c.viewport.quadtree.queryViewport
            (cam.getViewportBounds cw chh))).map (fun o => o.id) := by
        rw [← hqr]
        exact hmem
      obtain ⟨o, ho, hoid⟩ := List.mem_map.mp hmem2
      rw [mem_sortByZIndex] at ho
      exact queryViewport_id_absent c.viewport.quadtree
        (cam.getViewportBounds cw chh) c.nextObjectId hfresh
        (List.mem_map.mpr ⟨o, ho, hoid⟩)

/-- C10 witness: a fresh 800x600 canvas with grid 20; the object added at
(500000, 500000) lies outside the world bound, gets id 1, exists, and is
invisible to every query and viewport update. -/
theorem C10_out_of_bounds_object_invisible_witness :
    (addObject 1 500000 500000 100 100 7 1
      (some (InfiniteCanvas.new 800 600 20))).1 = 1 ∧
    (addObject 1 500000 500000 100 100 7 1
      (some (InfiniteCanvas.new 800 600 20))).1 ≠ 0 ∧
    objectExists 1 (addObject 1 500000 500000 100 100 7 1
      (some (InfiniteCanvas.new 800 600 20))).2 = true ∧
    ∀ c1, (addObject 1 500000 500000 100 100 7 1
        (some (InfiniteCanvas.new 800 600 20))).2 = some c1 →
      c1.viewport.quadtree = (InfiniteCanvas.new 800 600 20).viewport.quadtree ∧
      (∀ range : AABB,
        1 ∉ (c1.viewport.quadtree.queryViewport range).map (fun o => o.id)) ∧
      (∀ cam : Camera, ∀ cw chh : ℚ,
        1 ∉ (({ c1.viewport with camera := cam, canvasWidth := cw, canvasHeight := chh } : Viewport).updateVisibleObjects).2.visibleObjects.map
          (fun o => o.id)) :=
  C10_out_of_bounds_object_invisible 1 (InfiniteCanvas.new 800 600 20)
    500000 500000 100 100 7 1 (by with_unfolding_all decide)
    (by with_unfolding_all decide) (by with_unfolding_all decide)

end MediaGrid
